import Mathlib

/-!
Verification of the deterministic simulation core of the bobn arcade shooter.

The Go source is shallowly embedded: float64 values are modelled as exact
rationals, Go ints as integers, and every wall-clock sample taken by the code
(time.Now / time.Since) is drawn from an explicit oracle stream threaded
through the definitions, so that the whole simulation is a pure function of
its inputs and of that oracle. Go integer division and remainder are
modelled by Int.tdiv and Int.tmod, which truncate toward zero exactly as Go
does.
-/

namespace Bobn

/-- Rational stand-in for Go float64. All arithmetic the claims depend on is
exact at the modelled inputs; float-specific rounding is noted where it
matters (invader shooting). -/
abbrev R := ℚ

/-- Truncation toward zero, as used by Go's math.Trunc / math.Mod. -/
def qtrunc (q : R) : ℤ := if 0 ≤ q then ⌊q⌋ else ⌈q⌉

/-- Go's math.Mod(x, y) = x - Trunc(x/y)*y (result has the sign of x). -/
def mathMod (x y : R) : R := x - y * (qtrunc (x / y) : R)

/-- Oracle of wall-clock samples: successive time.Now() readings in
nanoseconds. Threading it explicitly realises the claims' side condition
that randomness and wall-clock effects are held fixed. -/
structure Clock where
  stream : ℕ → ℤ
  idx : ℕ

/-- Draw the next time.Now() reading from the oracle. -/
def Clock.now (c : Clock) : ℤ × Clock := (c.stream c.idx, ⟨c.stream, c.idx + 1⟩)

/-- Nanoseconds to seconds, as in Go's Duration.Seconds(). -/
def nanosToSeconds (n : ℤ) : R := (n : R) / 1000000000

/-- Vector2 from entities.go. -/
structure Vector2 where
  X : R
  Y : R
deriving DecidableEq

/-- Vector2.Add from entities.go. -/
def Vector2.Add (v other : Vector2) : Vector2 := ⟨v.X + other.X, v.Y + other.Y⟩

/-- Vector2.Scale from entities.go. -/
def Vector2.Scale (v : Vector2) (scalar : R) : Vector2 := ⟨v.X * scalar, v.Y * scalar⟩

/-- Bounds (axis-aligned rectangle) from entities.go. -/
structure Bounds where
  X : R
  Y : R
  Width : R
  Height : R
deriving DecidableEq

/-- Bounds.Contains from entities.go. -/
def Bounds.Contains (b : Bounds) (x y : R) : Bool :=
  decide (x ≥ b.X) && decide (x < b.X + b.Width) &&
  decide (y ≥ b.Y) && decide (y < b.Y + b.Height)

/-- Bounds.Intersects from entities.go (strict AABB overlap). -/
def Bounds.Intersects (b other : Bounds) : Bool :=
  decide (b.X < other.X + other.Width) && decide (b.X + b.Width > other.X) &&
  decide (b.Y < other.Y + other.Height) && decide (b.Y + b.Height > other.Y)

/-- Bullet from entities.go. -/
structure Bullet where
  Position : Vector2
  Velocity : Vector2
  Bounds : Bounds
  Alive : Bool
  IsPlayerBullet : Bool
  Damage : ℤ
deriving DecidableEq

/-- NewBullet from entities.go (bulletWidth = 2, bulletHeight = 8). -/
def NewBullet (x y velX velY : R) (isPlayerBullet : Bool) : Bullet :=
  { Position := ⟨x, y⟩
    Velocity := ⟨velX, velY⟩
    Bounds := ⟨x - 2/2, y - 8/2, 2, 8⟩
    Alive := true
    IsPlayerBullet := isPlayerBullet
    Damage := 1 }

/-- Bullet.Update from entities.go. -/
def Bullet.Update (b : Bullet) (deltaTime screenWidth screenHeight : R) : Bullet :=
  if !b.Alive then b
  else
    let pos := b.Position.Add (b.Velocity.Scale deltaTime)
    let bounds := { b.Bounds with X := pos.X - b.Bounds.Width / 2, Y := pos.Y - b.Bounds.Height / 2 }
    let alive : Bool :=
      !(decide (pos.Y < 0) || decide (pos.Y > screenHeight) ||
        decide (pos.X < 0) || decide (pos.X > screenWidth))
    { b with Position := pos, Bounds := bounds, Alive := alive }

/-- PlayerShip from entities.go. LastShotTime is a UnixNano reading. -/
structure PlayerShip where
  Position : Vector2
  Velocity : Vector2
  Bounds : Bounds
  Alive : Bool
  MaxSpeed : R
  Acceleration : R
  Friction : R
  AnimFrame : ℤ
  AnimTimer : R
  CanShoot : Bool
  LastShotTime : ℤ
  FireRate : R
deriving DecidableEq

/-- NewPlayerShip from entities.go (shipWidth = 24, shipHeight = 16);
samples time.Now() for LastShotTime. -/
def NewPlayerShip (x y : R) (c : Clock) : PlayerShip × Clock :=
  let (now, c') := c.now
  ({ Position := ⟨x, y⟩
     Velocity := ⟨0, 0⟩
     Bounds := ⟨x - 24/2, y - 16/2, 24, 16⟩
     Alive := true
     MaxSpeed := 200
     Acceleration := 800
     Friction := 400
     AnimFrame := 0
     AnimTimer := 0
     CanShoot := true
     LastShotTime := now
     FireRate := 4 }, c')

/-- PlayerShip.Update from entities.go. Note the source order: position is
integrated, the bounds are recomputed, and only then is the position clamped
to the screen margins, without recomputing the bounds again. The shooting
cooldown samples the clock only when CanShoot is false (Go short-circuit). -/
def PlayerShip.Update (p : PlayerShip) (deltaTime screenWidth : R) (c : Clock) :
    PlayerShip × Clock :=
  if !p.Alive then (p, c)
  else
    let pos := p.Position.Add (p.Velocity.Scale deltaTime)
    let bounds := { p.Bounds with X := pos.X - p.Bounds.Width / 2, Y := pos.Y - p.Bounds.Height / 2 }
    let halfWidth := bounds.Width / 2
    let posVel :=
      if pos.X < halfWidth then
        ({ pos with X := halfWidth }, { p.Velocity with X := 0 })
      else if pos.X > screenWidth - halfWidth then
        ({ pos with X := screenWidth - halfWidth }, { p.Velocity with X := 0 })
      else (pos, p.Velocity)
    let canShootC :=
      if !p.CanShoot then
        let (now, c') := c.now
        (decide (nanosToSeconds (now - p.LastShotTime) > 1 / p.FireRate), c')
      else (true, c)
    let animTimer := p.AnimTimer + deltaTime
    let anim :=
      if animTimer > 1/10 then ((p.AnimFrame + 1) % 2, (0 : R))
      else (p.AnimFrame, animTimer)
    ({ p with
        Position := posVel.1
        Velocity := posVel.2
        Bounds := bounds
        CanShoot := canShootC.1
        AnimFrame := anim.1
        AnimTimer := anim.2 }, canShootC.2)

/-- PlayerShip.ApplyInput from entities.go. -/
def PlayerShip.ApplyInput (p : PlayerShip) (left right : Bool) (deltaTime : R) : PlayerShip :=
  if !p.Alive then p
  else
    let vx :=
      if left && !right then p.Velocity.X - p.Acceleration * deltaTime
      else if right && !left then p.Velocity.X + p.Acceleration * deltaTime
      else if p.Velocity.X > 0 then
        let v := p.Velocity.X - p.Friction * deltaTime
        if v < 0 then 0 else v
      else if p.Velocity.X < 0 then
        let v := p.Velocity.X + p.Friction * deltaTime
        if v > 0 then 0 else v
      else p.Velocity.X
    let vx :=
      if vx > p.MaxSpeed then p.MaxSpeed
      else if vx < -p.MaxSpeed then -p.MaxSpeed
      else vx
    { p with Velocity := { p.Velocity with X := vx } }

/-- PlayerShip.TryShoot from entities.go; samples time.Now() only on a
successful shot. -/
def PlayerShip.TryShoot (p : PlayerShip) (c : Clock) : Option Bullet × PlayerShip × Clock :=
  if !p.Alive || !p.CanShoot then (none, p, c)
  else
    let (now, c') := c.now
    (some (NewBullet p.Position.X (p.Position.Y - p.Bounds.Height / 2) 0 (-400) true),
     { p with CanShoot := false, LastShotTime := now }, c')

/-- InvaderType from entities.go. -/
inductive InvaderType where
  | Small
  | Medium
  | Large
deriving DecidableEq

/-- Invader from entities.go. The Go field named Type is called Ty here
because Type is reserved in Lean. -/
structure Invader where
  Ty : InvaderType
  Position : Vector2
  Bounds : Bounds
  Alive : Bool
  Points : ℤ
  Direction : ℤ
  AnimFrame : ℤ
  AnimTimer : R
  CanShoot : Bool
  LastShotTime : ℤ
  ShootChance : R
deriving DecidableEq

/-- Per-type width, height and shoot chance from NewInvader. -/
def invaderDims : InvaderType → R × R × R
  | .Small => (16, 16, 3/100)
  | .Medium => (20, 16, 2/100)
  | .Large => (24, 16, 1/100)

/-- NewInvader from entities.go; samples time.Now() for LastShotTime. -/
def NewInvader (invaderType : InvaderType) (x y : R) (points : ℤ) (c : Clock) :
    Invader × Clock :=
  let (width, height, shootChance) := invaderDims invaderType
  let (now, c') := c.now
  ({ Ty := invaderType
     Position := ⟨x, y⟩
     Bounds := ⟨x - width / 2, y - height / 2, width, height⟩
     Alive := true
     Points := points
     Direction := 1
     AnimFrame := 0
     AnimTimer := 0
     CanShoot := true
     LastShotTime := now
     ShootChance := shootChance }, c')

/-- Invader.Update from entities.go (animation only). -/
def Invader.Update (i : Invader) (deltaTime : R) : Invader :=
  if !i.Alive then i
  else
    let animTimer := i.AnimTimer + deltaTime
    if animTimer > 1/2 then { i with AnimFrame := (i.AnimFrame + 1) % 2, AnimTimer := 0 }
    else { i with AnimTimer := animTimer }

/-- Invader.Move from entities.go. -/
def Invader.Move (i : Invader) (deltaX deltaY : R) : Invader :=
  if !i.Alive then i
  else
    let pos : Vector2 := ⟨i.Position.X + deltaX, i.Position.Y + deltaY⟩
    { i with
        Position := pos
        Bounds := { i.Bounds with X := pos.X - i.Bounds.Width / 2, Y := pos.Y - i.Bounds.Height / 2 } }

/-- Invader.TryShoot from entities.go. The Go guard is
math.Mod(float64(time.Now().UnixNano()/1000), 1.0) < ShootChance*deltaTime.
UnixNano()/1000 is Go integer division, so the float64 being reduced mod 1 is
integer-valued (float64 conversion of an int64 always yields an
integer-valued float), and the left side is always 0. The model keeps the
expression shape; a second time.Now() is sampled for LastShotTime on fire. -/
def Invader.TryShoot (i : Invader) (deltaTime : R) (c : Clock) :
    Option Bullet × Invader × Clock :=
  if !i.Alive || !i.CanShoot then (none, i, c)
  else
    let (now, c') := c.now
    let shootProbability := i.ShootChance * deltaTime
    if mathMod ((Int.tdiv now 1000 : ℤ) : R) 1 < shootProbability then
      let (now2, c'') := c'.now
      (some (NewBullet i.Position.X (i.Position.Y + i.Bounds.Height / 2) 0 200 false),
       { i with LastShotTime := now2 }, c'')
    else (none, i, c')

/-- UFO from entities.go. SpawnTime is a UnixNano reading; MaxLifetime is in
nanoseconds (15 seconds). -/
structure UFO where
  Position : Vector2
  Velocity : Vector2
  Bounds : Bounds
  Alive : Bool
  Points : ℤ
  Direction : ℤ
  SpawnTime : ℤ
  MaxLifetime : ℤ
deriving DecidableEq

/-- NewUFO from entities.go (ufoWidth = 32, ufoHeight = 16, ufoSpeed = 100).
The point value indexes {100,150,200,300} by time.Now().UnixNano()/1000000
mod 4; a second time.Now() is stored as SpawnTime. -/
def NewUFO (startX y : R) (direction : ℤ) (c : Clock) : UFO × Clock :=
  let velocity : Vector2 := ⟨100 * (direction : R), 0⟩
  let (now1, c') := c.now
  let points := [100, 150, 200, 300].getD (Int.tmod (Int.tdiv now1 1000000) 4).toNat 0
  let (now2, c'') := c'.now
  ({ Position := ⟨startX, y⟩
     Velocity := velocity
     Bounds := ⟨startX - 32/2, y - 16/2, 32, 16⟩
     Alive := true
     Points := points
     Direction := direction
     SpawnTime := now2
     MaxLifetime := 15000000000 }, c'')

/-- UFO.Update from entities.go. The lifetime check time.Since(SpawnTime) >
MaxLifetime samples the clock only when both off-screen tests fail (Go
short-circuit evaluation). -/
def UFO.Update (u : UFO) (deltaTime screenWidth : R) (c : Clock) : UFO × Clock :=
  if !u.Alive then (u, c)
  else
    let pos := u.Position.Add (u.Velocity.Scale deltaTime)
    let bounds := { u.Bounds with X := pos.X - u.Bounds.Width / 2, Y := pos.Y - u.Bounds.Height / 2 }
    if pos.X < -bounds.Width || pos.X > screenWidth + bounds.Width then
      ({ u with Position := pos, Bounds := bounds, Alive := false }, c)
    else
      let (now, c') := c.now
      let alive : Bool := !decide (now - u.SpawnTime > u.MaxLifetime)
      ({ u with Position := pos, Bounds := bounds, Alive := alive }, c')

/-- ShouldSpawnUFO from entities.go; samples time.Now() for
time.Since(lastUFOTime). -/
def ShouldSpawnUFO (lastUFOTime : ℤ) (gameTime : R) (c : Clock) : Bool × Clock :=
  let minInterval : R := 20
  let maxInterval : R := 40
  let (now, c') := c.now
  let timeSinceLastUFO := nanosToSeconds (now - lastUFOTime)
  let spawnThreshold := minInterval + (maxInterval - minInterval) * mathMod (gameTime * (123/1000)) 1
  (decide (timeSinceLastUFO > spawnThreshold), c')

/-- GameMode from state.go. -/
inductive GameMode where
  | AttractMode
  | Playing
  | GameOver
  | HighScore
deriving DecidableEq

/-- InputState from state.go. -/
structure InputState where
  LeftPressed : Bool
  RightPressed : Bool
  FirePressed : Bool
  FireJustPressed : Bool
  PauseJustPressed : Bool
deriving DecidableEq

/-- The zero-valued InputState (Go struct literal with no fields set). -/
def InputState.default : InputState := ⟨false, false, false, false, false⟩

/-- GameState from state.go. LastUpdate is a UnixNano reading. -/
structure GameState where
  Mode : GameMode
  Paused : Bool
  GameStarted : Bool
  GameEnded : Bool
  Player : Option PlayerShip
  Lives : ℤ
  Score : ℤ
  HighScore : ℤ
  Invaders : List Invader
  Bullets : List Bullet
  UFO : Option UFO
  Barriers : List (List Bool)
  Wave : ℤ
  WaveCleared : Bool
  LastUpdate : ℤ
  DeltaTime : R
  ScreenWidth : ℤ
  ScreenHeight : ℤ
  FixedDeltaTime : R
  Input : InputState
deriving DecidableEq

/-- NewGameState from state.go; unnamed Go struct fields take zero values.
Samples time.Now() for LastUpdate. -/
def NewGameState (screenWidth screenHeight : ℤ) (c : Clock) : GameState × Clock :=
  let (now, c') := c.now
  ({ Mode := .AttractMode
     Paused := false
     GameStarted := false
     GameEnded := false
     Player := none
     Lives := 3
     Score := 0
     HighScore := 0
     Invaders := []
     Bullets := []
     UFO := none
     Barriers := []
     Wave := 1
     WaveCleared := false
     LastUpdate := now
     DeltaTime := 0
     ScreenWidth := screenWidth
     ScreenHeight := screenHeight
     FixedDeltaTime := 1/20
     Input := InputState.default }, c')

/-- Row-dependent invader type and point value, from the switch inside
initializeInvaders (rows outside 0..4 keep Go zero values and never occur). -/
def invaderRowKind (row : ℕ) : InvaderType × ℤ :=
  match row with
  | 0 => (.Small, 30)
  | 1 => (.Medium, 20)
  | 2 => (.Medium, 20)
  | 3 => (.Large, 10)
  | 4 => (.Large, 10)
  | _ => (.Small, 0)

/-- One grid cell of initializeInvaders: rows = 5, cols = 11, spacingX = 40,
spacingY = 30, startX = 100, startY = 80. -/
def gridInvader (row col : ℕ) (c : Clock) : Invader × Clock :=
  let (invaderType, points) := invaderRowKind row
  NewInvader invaderType ((100 + col * 40 : ℕ) : R) ((80 + row * 30 : ℕ) : R) points c

/-- The row-major cell order of the two nested loops in initializeInvaders. -/
def gridCells : List (ℕ × ℕ) :=
  (List.range 5).foldr (fun row acc => ((List.range 11).map fun col => (row, col)) ++ acc) []

/-- Builds the invader list of initializeInvaders, consuming one clock sample
per NewInvader call, in loop order. -/
def buildInvaderGrid (c : Clock) : List (ℕ × ℕ) → List Invader × Clock
  | [] => ([], c)
  | (row, col) :: rest =>
    let (inv, c') := gridInvader row col c
    let (invs, c'') := buildInvaderGrid c' rest
    (inv :: invs, c'')

/-- GameState.initializeInvaders from state.go. -/
def GameState.initializeInvaders (gs : GameState) (c : Clock) : GameState × Clock :=
  let (invs, c') := buildInvaderGrid c gridCells
  ({ gs with Invaders := invs }, c')

/-- One block of the barrier grid: x is the column within a single barrier
(0..21), y the row (0..15). The Go loop skips (leaves false) a 3-block margin
on every edge and the central region 8 < x < 14, 8 < y < 12, and sets every
other block true; its bounds guard (startX+x < 88 and y < 16) always holds. -/
def barrierBlockSolid (x y : ℕ) : Bool :=
  !(decide (y < 3) || decide (y > 16 - 4) || decide (x < 3) || decide (x > 22 - 4)) &&
  !(decide (y > 8) && decide (y < 12) && decide (x > 8) && decide (x < 14))

/-- GameState.initializeBarriers from state.go: barrierCount = 4,
barrierWidth = 22, barrierHeight = 16. Each cell (barrier*22 + x, y) is
written exactly once by the loops, so the grid is expressed pointwise with
x = column mod 22. -/
def GameState.initializeBarriers (gs : GameState) : GameState :=
  { gs with
      Barriers :=
        (List.range (4 * 22)).map fun gx =>
          (List.range 16).map fun y => barrierBlockSolid (gx % 22) y }

/-- GameState.InitializeNewGame from state.go. -/
def GameState.InitializeNewGame (gs : GameState) (c : Clock) : GameState × Clock :=
  let gs := { gs with
      Mode := .Playing
      Paused := false
      GameStarted := true
      GameEnded := false
      Lives := 3
      Score := 0
      Wave := 1
      WaveCleared := false }
  let (p, c) := NewPlayerShip ((Int.tdiv gs.ScreenWidth 2 : ℤ) : R) ((gs.ScreenHeight - 40 : ℤ) : R) c
  let gs := { gs with Player := some p }
  let (gs, c) := gs.initializeInvaders c
  let gs := { gs with Bullets := [], UFO := none }
  let gs := gs.initializeBarriers
  let (now, c) := c.now
  ({ gs with Input := InputState.default, LastUpdate := now }, c)

/-- GameState.ResetToAttractMode from state.go. -/
def GameState.ResetToAttractMode (gs : GameState) : GameState :=
  { gs with
      Mode := .AttractMode
      Paused := false
      GameStarted := false
      GameEnded := false
      Player := none
      Invaders := []
      Bullets := []
      UFO := none
      Input := InputState.default }

/-- GameState.GameOver from state.go. -/
def GameState.GameOver (gs : GameState) : GameState :=
  let gs := { gs with Mode := .GameOver, GameEnded := true }
  if gs.Score > gs.HighScore then { gs with HighScore := gs.Score } else gs

/-- GameState.NextWave from state.go. -/
def GameState.NextWave (gs : GameState) (c : Clock) : GameState × Clock :=
  let gs := { gs with Wave := gs.Wave + 1, WaveCleared := false }
  let (gs, c') := gs.initializeInvaders c
  let gs :=
    match gs.Player with
    | some p =>
      { gs with
          Player := some { p with
            Position := ⟨((Int.tdiv gs.ScreenWidth 2 : ℤ) : R), ((gs.ScreenHeight - 40 : ℤ) : R)⟩
            Velocity := { p.Velocity with X := 0 } } }
    | none => gs
  ({ gs with Bullets := gs.Bullets.filter fun b => !b.IsPlayerBullet }, c')

/-- GameState.IsWaveCleared from state.go. -/
def GameState.IsWaveCleared (gs : GameState) : Bool := gs.Invaders.isEmpty

/-- GameState.AddScore from state.go. -/
def GameState.AddScore (gs : GameState) (points : ℤ) : GameState :=
  let gs := { gs with Score := gs.Score + points }
  if gs.Score > gs.HighScore then { gs with HighScore := gs.Score } else gs

/-- GameState.LoseLife from state.go. -/
def GameState.LoseLife (gs : GameState) : GameState :=
  let gs := { gs with Lives := gs.Lives - 1 }
  if gs.Lives ≤ 0 then gs.GameOver else gs

/-- GameState.TogglePause from state.go. -/
def GameState.TogglePause (gs : GameState) : GameState :=
  if gs.Mode = .Playing then { gs with Paused := !gs.Paused } else gs

/-- Engine from the engine source file. The wall-clock oracle lives inside
the engine so that every operation is a pure function Engine to Engine. -/
structure Engine where
  state : GameState
  lastUFOTime : ℤ
  gameStartTime : ℤ
  invaderMoveTimer : R
  invaderDropTimer : R
  invaderMoveSpeed : R
  invaderDropDistance : R
  invaderMoveInterval : R
  baseInvaderSpeed : R
  accumulator : R
  clock : Clock

/-- NewEngine: baseInvaderSpeed = 1, invaderDropDistance = 20,
invaderMoveInterval = 1; the other numeric fields take Go zero values.
Samples time.Now() for lastUFOTime and gameStartTime (after the state's
own LastUpdate sample). -/
def NewEngine (screenWidth screenHeight : ℤ) (c : Clock) : Engine :=
  let (st, c) := NewGameState screenWidth screenHeight c
  let (now1, c) := c.now
  let (now2, c) := c.now
  { state := st
    lastUFOTime := now1
    gameStartTime := now2
    invaderMoveTimer := 0
    invaderDropTimer := 0
    invaderMoveSpeed := 0
    invaderDropDistance := 20
    invaderMoveInterval := 1
    baseInvaderSpeed := 1
    accumulator := 0
    clock := c }

/-- Engine.resetInvaderMovement. -/
def Engine.resetInvaderMovement (e : Engine) : Engine :=
  { e with invaderMoveTimer := 0, invaderDropTimer := 0 }

/-- Engine.StartNewGame: InitializeNewGame, then gameStartTime and
lastUFOTime are re-sampled from time.Now(). -/
def Engine.StartNewGame (e : Engine) : Engine :=
  let (st, c) := e.state.InitializeNewGame e.clock
  let (now1, c) := c.now
  let (now2, c) := c.now
  ({ e with state := st, gameStartTime := now1, lastUFOTime := now2, clock := c }).resetInvaderMovement

/-- appendShot: appends a bullet returned by TryShoot to the state's bullet
list, as the Go call sites do after a non-nil check. -/
def appendShot (bullets : List Bullet) : Option Bullet → List Bullet
  | some b => bullets ++ [b]
  | none => bullets

/-- Engine.ProcessAnalogInput from the engine source. In Playing mode the
player's X position is set directly from the analog value (smoothed by the
0.3 and 0.7 weights and clamped to stay 30 pixels inside the screen); the
player's Bounds field is not touched by this path. -/
def Engine.ProcessAnalogInput (e : Engine)
    (analogX : R) (firePressed fireJustPressed pauseJustPressed : Bool) : Engine :=
  match e.state.Mode with
  | .AttractMode =>
    if fireJustPressed || pauseJustPressed then e.StartNewGame else e
  | .Playing =>
    let e := if pauseJustPressed then { e with state := e.state.TogglePause } else e
    if !e.state.Paused then
      match e.state.Player with
      | some p =>
        if p.Alive then
          let centerX := ((e.state.ScreenWidth : ℤ) : R) / 2
          let maxOffset := ((e.state.ScreenWidth : ℤ) : R) / 2 - 30
          let targetX := centerX + analogX * maxOffset
          let newX := p.Position.X * (3/10) + targetX * (7/10)
          let newX := if newX < 30 then 30 else newX
          let newX :=
            if newX > ((e.state.ScreenWidth : ℤ) : R) - 30 then ((e.state.ScreenWidth : ℤ) : R) - 30
            else newX
          let p := { p with Position := { p.Position with X := newX } }
          if firePressed then
            let (ob, p, c) := p.TryShoot e.clock
            { e with
                state := { e.state with Player := some p, Bullets := appendShot e.state.Bullets ob }
                clock := c }
          else { e with state := { e.state with Player := some p } }
        else e
      | none => e
    else e
  | .GameOver => if fireJustPressed || pauseJustPressed then { e with state := { e.state with Mode := .AttractMode } } else e
  | .HighScore => if fireJustPressed || pauseJustPressed then { e with state := { e.state with Mode := .AttractMode } } else e

/-- Engine.processPlayingInput from the engine source. -/
def Engine.processPlayingInput (e : Engine) : Engine :=
  match e.state.Player with
  | none => e
  | some p =>
    if !p.Alive then e
    else
      let p := p.ApplyInput e.state.Input.LeftPressed e.state.Input.RightPressed e.state.FixedDeltaTime
      if e.state.Input.FireJustPressed then
        let (ob, p, c) := p.TryShoot e.clock
        { e with
            state := { e.state with Player := some p, Bullets := appendShot e.state.Bullets ob }
            clock := c }
      else { e with state := { e.state with Player := some p } }

/-- Engine.ProcessInput from the engine source: records the input snapshot,
then dispatches on the mode. -/
def Engine.ProcessInput (e : Engine)
    (leftPressed rightPressed firePressed fireJustPressed pauseJustPressed : Bool) : Engine :=
  let e := { e with state := { e.state with
      Input := ⟨leftPressed, rightPressed, firePressed, fireJustPressed, pauseJustPressed⟩ } }
  match e.state.Mode with
  | .AttractMode => if fireJustPressed then e.StartNewGame else e
  | .Playing =>
    let e := if pauseJustPressed then { e with state := e.state.TogglePause } else e
    if !e.state.Paused then e.processPlayingInput else e
  | .GameOver => if fireJustPressed then { e with state := e.state.ResetToAttractMode } else e
  | .HighScore => if fireJustPressed then { e with state := e.state.ResetToAttractMode } else e

/-- The body of updateInvaders' loop: dead invaders are dropped, live ones
are animated and offered a shot, whose bullet is appended in loop order. -/
def invaderPass (deltaTime : R) (c : Clock) : List Invader → List Invader × List Bullet × Clock
  | [] => ([], [], c)
  | inv :: rest =>
    if !inv.Alive then invaderPass deltaTime c rest
    else
      let inv := inv.Update deltaTime
      let (ob, inv, c) := inv.TryShoot deltaTime c
      let (live, newBullets, c') := invaderPass deltaTime c rest
      (inv :: live, (match ob with | some b => b :: newBullets | none => newBullets), c')

/-- findInvaderBounds from the engine source. -/
def findInvaderBounds : List Invader → R × R
  | [] => (0, 0)
  | inv0 :: rest =>
    (inv0 :: rest).foldl
      (fun lr inv =>
        (if inv.Position.X < lr.1 then inv.Position.X else lr.1,
         if inv.Position.X > lr.2 then inv.Position.X else lr.2))
      (inv0.Position.X, inv0.Position.X)

/-- Engine.checkInvaderReachBottom: the Go loop calls GameOver on the first
invader whose Y has reached screenHeight - 100 and returns. -/
def Engine.checkInvaderReachBottom (e : Engine) : Engine :=
  let bottomLine : R := ((e.state.ScreenHeight - 100 : ℤ) : R)
  if e.state.Invaders.any (fun inv => decide (inv.Position.Y ≥ bottomLine)) then
    { e with state := e.state.GameOver }
  else e

/-- The per-invader move of updateInvaderFormation: every invader's
Direction field is set, then Move is applied (drop or sideways). -/
def moveFormation (shouldDrop : Bool) (direction : ℤ) (moveDistance dropDistance : R)
    (invs : List Invader) : List Invader :=
  invs.map fun inv =>
    let inv := { inv with Direction := direction }
    if shouldDrop then inv.Move 0 dropDistance else inv.Move moveDistance 0

/-- Engine.updateInvaderFormation from the engine source. -/
def Engine.updateInvaderFormation (deltaTime : R) (e : Engine) : Engine :=
  match e.state.Invaders with
  | [] => e
  | inv0 :: _ =>
    let e := { e with invaderMoveTimer := e.invaderMoveTimer + deltaTime }
    let invaderCount : R := (e.state.Invaders.length : R)
    let speedMultiplier := e.baseInvaderSpeed * (55 / (invaderCount + 5))
    let currentMoveInterval := e.invaderMoveInterval / speedMultiplier
    if e.invaderMoveTimer ≥ currentMoveInterval then
      let e := { e with invaderMoveTimer := 0 }
      let lr := findInvaderBounds e.state.Invaders
      let dd :=
        if inv0.Direction > 0 ∧ lr.2 ≥ ((e.state.ScreenWidth - 20 : ℤ) : R) then (true, (-1 : ℤ))
        else if inv0.Direction < 0 ∧ lr.1 ≤ 20 then (true, (1 : ℤ))
        else (false, inv0.Direction)
      let moveDistance := 10 * (dd.2 : R)
      let e := { e with state := { e.state with
          Invaders := moveFormation dd.1 dd.2 moveDistance e.invaderDropDistance e.state.Invaders } }
      e.checkInvaderReachBottom
    else e

/-- Engine.updateInvaders from the engine source. -/
def Engine.updateInvaders (deltaTime : R) (e : Engine) : Engine :=
  let passed := invaderPass deltaTime e.clock e.state.Invaders
  let e := { e with
      state := { e.state with Invaders := passed.1, Bullets := e.state.Bullets ++ passed.2.1 }
      clock := passed.2.2 }
  e.updateInvaderFormation deltaTime

/-- The body of updateBullets' loop. -/
def bulletPass (deltaTime screenWidth screenHeight : R) : List Bullet → List Bullet
  | [] => []
  | b :: rest =>
    if !b.Alive then bulletPass deltaTime screenWidth screenHeight rest
    else
      let b := b.Update deltaTime screenWidth screenHeight
      if b.Alive then b :: bulletPass deltaTime screenWidth screenHeight rest
      else bulletPass deltaTime screenWidth screenHeight rest

/-- Engine.updateBullets from the engine source. -/
def Engine.updateBullets (deltaTime : R) (e : Engine) : Engine :=
  { e with state := { e.state with
      Bullets := bulletPass deltaTime ((e.state.ScreenWidth : ℤ) : R) ((e.state.ScreenHeight : ℤ) : R) e.state.Bullets } }

/-- Engine.updateUFO from the engine source. -/
def Engine.updateUFO (deltaTime : R) (e : Engine) : Engine :=
  match e.state.UFO with
  | none => e
  | some u =>
    let (u', c') := u.Update deltaTime ((e.state.ScreenWidth : ℤ) : R) e.clock
    { e with
        state := { e.state with UFO := if u'.Alive then some u' else none }
        clock := c' }

/-- Engine.playerStage: the player-update step of updatePlaying. -/
def Engine.playerStage (deltaTime : R) (e : Engine) : Engine :=
  match e.state.Player with
  | none => e
  | some p =>
    let (p', c') := p.Update deltaTime ((e.state.ScreenWidth : ℤ) : R) e.clock
    { e with state := { e.state with Player := some p' }, clock := c' }

/-- The inner loop of handlePlayerBulletCollisions: scan the invader list in
order for the first live invader the bullet's bounds intersect; kill it and
report its point value, leaving every other invader untouched. -/
def scanHit (bb : Bounds) : List Invader → Option (List Invader × ℤ)
  | [] => none
  | inv :: rest =>
    if !inv.Alive then
      match scanHit bb rest with
      | none => none
      | some (rest', pts) => some (inv :: rest', pts)
    else if bb.Intersects inv.Bounds then some ({ inv with Alive := false } :: rest, inv.Points)
    else
      match scanHit bb rest with
      | none => none
      | some (rest', pts) => some (inv :: rest', pts)

/-- The outer loop of handlePlayerBulletCollisions over the only state the
loop touches: the invader list, the score and the high score. Each live
player bullet scans the invaders; on a hit the bullet dies and the score
update of GameState.AddScore is applied (score increases, high score follows
when passed); the next bullet sees the updated invaders and score. -/
def hpbcGo (invs : List Invader) (score highScore : ℤ) :
    List Bullet → List Bullet × List Invader × ℤ × ℤ
  | [] => ([], invs, score, highScore)
  | b :: bs =>
    if !b.Alive || !b.IsPlayerBullet then
      let r := hpbcGo invs score highScore bs
      (b :: r.1, r.2)
    else
      match scanHit b.Bounds invs with
      | none =>
        let r := hpbcGo invs score highScore bs
        (b :: r.1, r.2)
      | some (invs', pts) =>
        let score' := score + pts
        let highScore' := if score' > highScore then score' else highScore
        let r := hpbcGo invs' score' highScore' bs
        ({ b with Alive := false } :: r.1, r.2)

/-- GameState-level handlePlayerBulletCollisions (the engine method wraps
this on its state). -/
def GameState.handlePlayerBulletCollisions (st : GameState) : GameState :=
  let r := hpbcGo st.Invaders st.Score st.HighScore st.Bullets
  { st with Bullets := r.1, Invaders := r.2.1, Score := r.2.2.1, HighScore := r.2.2.2 }

/-- Engine.handlePlayerBulletCollisions from the engine source. -/
def Engine.handlePlayerBulletCollisions (e : Engine) : Engine :=
  { e with state := e.state.handlePlayerBulletCollisions }

/-- The loop of handlePlayerBulletUFOCollisions: the first live player
bullet whose bounds intersect the UFO dies, and the loop breaks. -/
def ufoScan (ub : Bounds) : List Bullet → Option (List Bullet)
  | [] => none
  | b :: bs =>
    if !b.Alive || !b.IsPlayerBullet then
      match ufoScan ub bs with
      | none => none
      | some bs' => some (b :: bs')
    else if b.Bounds.Intersects ub then some ({ b with Alive := false } :: bs)
    else
      match ufoScan ub bs with
      | none => none
      | some bs' => some (b :: bs')

/-- Engine.handlePlayerBulletUFOCollisions from the engine source. -/
def Engine.handlePlayerBulletUFOCollisions (e : Engine) : Engine :=
  match e.state.UFO with
  | none => e
  | some u =>
    if !u.Alive then e
    else
      match ufoScan u.Bounds e.state.Bullets with
      | none => e
      | some bs' =>
        let st := { e.state with Bullets := bs', UFO := some { u with Alive := false } }
        { e with state := st.AddScore u.Points }

/-- The loop of handleEnemyBulletCollisions: the first live enemy bullet
whose bounds intersect the player dies, and the loop breaks. -/
def enemyScan (pb : Bounds) : List Bullet → Option (List Bullet)
  | [] => none
  | b :: bs =>
    if !b.Alive || b.IsPlayerBullet then
      match enemyScan pb bs with
      | none => none
      | some bs' => some (b :: bs')
    else if b.Bounds.Intersects pb then some ({ b with Alive := false } :: bs)
    else
      match enemyScan pb bs with
      | none => none
      | some bs' => some (b :: bs')

/-- Engine.handleEnemyBulletCollisions (with the inlined respawnPlayer) from
the engine source: on a hit the bullet and player die, LoseLife runs, and if
lives remain the player is respawned at the start position (sampling
time.Now() through NewPlayerShip) and only player bullets are kept. -/
def Engine.handleEnemyBulletCollisions (e : Engine) : Engine :=
  match e.state.Player with
  | none => e
  | some p =>
    if !p.Alive then e
    else
      match enemyScan p.Bounds e.state.Bullets with
      | none => e
      | some bs' =>
        let st := { e.state with Bullets := bs', Player := some { p with Alive := false } }
        let st := st.LoseLife
        if st.Lives > 0 then
          let npc := NewPlayerShip ((Int.tdiv st.ScreenWidth 2 : ℤ) : R) ((st.ScreenHeight - 40 : ℤ) : R) e.clock
          { e with
              state := { st with
                Player := some npc.1
                Bullets := st.Bullets.filter fun b => b.IsPlayerBullet }
              clock := npc.2 }
        else { e with state := st }

/-- Engine.handleCollisions from the engine source. -/
def Engine.handleCollisions (e : Engine) : Engine :=
  e.handlePlayerBulletCollisions.handlePlayerBulletUFOCollisions.handleEnemyBulletCollisions

/-- Engine.checkGameConditions from the engine source. -/
def Engine.checkGameConditions (e : Engine) : Engine :=
  if e.state.IsWaveCleared && !e.state.WaveCleared then
    let st := { e.state with WaveCleared := true }
    let r := st.NextWave e.clock
    ({ e with state := r.1, clock := r.2 }).resetInvaderMovement
  else e

/-- Engine.maybeSpawnUFO from the engine source. gameTime is
time.Since(gameStartTime).Seconds(); on spawn, lastUFOTime is re-sampled and
the side alternates on mathMod gameTime 2. -/
def Engine.maybeSpawnUFO (e : Engine) : Engine :=
  match e.state.UFO with
  | some _ => e
  | none =>
    let (now1, c) := e.clock.now
    let gameTime := nanosToSeconds (now1 - e.gameStartTime)
    let sc := ShouldSpawnUFO e.lastUFOTime gameTime c
    if sc.1 then
      let (now3, c') := sc.2.now
      let sd : R × ℤ :=
        if mathMod gameTime 2 < 1 then (-50, 1)
        else (((e.state.ScreenWidth : ℤ) : R) + 50, -1)
      let uc := NewUFO sd.1 50 sd.2 c'
      { e with state := { e.state with UFO := some uc.1 }, lastUFOTime := now3, clock := uc.2 }
    else { e with clock := sc.2 }

/-- Engine.updateAttractMode (a no-op in the source). -/
def Engine.updateAttractMode (_deltaTime : R) (e : Engine) : Engine := e

/-- Engine.updateGameOver (a no-op in the source). -/
def Engine.updateGameOver (_deltaTime : R) (e : Engine) : Engine := e

/-- Engine.updateHighScore (a no-op in the source). -/
def Engine.updateHighScore (_deltaTime : R) (e : Engine) : Engine := e

/-- Engine.updatePlaying from the engine source, in source order. -/
def Engine.updatePlaying (deltaTime : R) (e : Engine) : Engine :=
  ((((e.playerStage deltaTime).updateInvaders deltaTime).updateBullets
      deltaTime).updateUFO deltaTime).handleCollisions.checkGameConditions.maybeSpawnUFO

/-- Engine.fixedUpdate from the engine source. -/
def Engine.fixedUpdate (deltaTime : R) (e : Engine) : Engine :=
  match e.state.Mode with
  | .AttractMode => e.updateAttractMode deltaTime
  | .Playing => e.updatePlaying deltaTime
  | .GameOver => e.updateGameOver deltaTime
  | .HighScore => e.updateHighScore deltaTime

/-- One iteration of Update's fixed-timestep loop: run fixedUpdate at the
fixed step, then subtract the step from the accumulator (fixedUpdate never
touches the accumulator or the fixed step, so reading them before the tick
matches the Go order). -/
def Engine.step (e : Engine) : Engine :=
  { e.fixedUpdate e.state.FixedDeltaTime with
      accumulator := e.accumulator - e.state.FixedDeltaTime }

/-- The guarded loop body of Update, with explicit fuel. The fuel below is
exactly the number of iterations the Go loop (for accumulator >=
FixedDeltaTime) performs, because fixedUpdate preserves both fields; the
guard is re-checked each iteration, and the loop-unfolding equation is
proved as Engine.runFixed_eq below. The 0 < FixedDeltaTime conjunct makes
the Go loop's (source-true) termination condition explicit. -/
def Engine.runFixedAux : ℕ → Engine → Engine
  | 0, e => e
  | n + 1, e =>
    if 0 < e.state.FixedDeltaTime ∧ e.state.FixedDeltaTime ≤ e.accumulator then
      Engine.runFixedAux n e.step
    else e

/-- The fixed-timestep loop of Engine.Update. -/
def Engine.runFixed (e : Engine) : Engine :=
  Engine.runFixedAux (⌊e.accumulator / e.state.FixedDeltaTime⌋).toNat e

/-- Engine.Update from the engine source: store deltaTime in the state for
reference, return immediately when paused, otherwise accumulate and run
fixed ticks while a full step remains banked. -/
def Engine.Update (e : Engine) (deltaTime : R) : Engine :=
  let e := { e with state := { e.state with DeltaTime := deltaTime } }
  if e.state.Paused then e
  else Engine.runFixed { e with accumulator := e.accumulator + deltaTime }

/-- Overwrite the DeltaTime reference field (the only state Engine.Update
changes besides the accumulator and the ticks). -/
def Engine.setDT (e : Engine) (v : R) : Engine :=
  { e with state := { e.state with DeltaTime := v } }

/-- Overwrite the accumulator and the DeltaTime reference field together:
the frame through which the fixed ticks are shown not to look at either. -/
def Engine.ghost (e : Engine) (a v : R) : Engine :=
  { e with accumulator := a, state := { e.state with DeltaTime := v } }

/-- The control fields of an engine that a fixed tick never writes: the
pause flag, the fixed step, the DeltaTime reference and the accumulator. -/
def Engine.ctl (e : Engine) : Bool × R × R × R :=
  (e.state.Paused, e.state.FixedDeltaTime, e.state.DeltaTime, e.accumulator)

/-- A fixed wall-clock oracle (every time.Now() reads 0), used for concrete
evaluations. -/
def clock0 : Clock := ⟨fun _ => 0, 0⟩

/-- A freshly constructed engine (attract mode, not paused, accumulator 0,
DeltaTime 0, fixed step 1/20) on an 800 x 600 screen. -/
def demoEngine : Engine := NewEngine 800 600 clock0

/-- The demo engine switched to Playing and paused, as left by a pause
press during play. -/
def pausedEngine : Engine :=
  { demoEngine with state := { demoEngine.state with Mode := .Playing, Paused := true } }

/-- A freshly constructed game state (attract mode). -/
def demoState : GameState := (NewGameState 800 600 clock0).1

/-- A player ship at the start position. -/
def demoShip : PlayerShip := (NewPlayerShip 400 560 clock0).1

/-- A game state in Playing mode with a player present. -/
def demoPlayingState : GameState :=
  { demoState with Mode := .Playing, Player := some demoShip }

/-- A dead player ship. -/
def deadShip : PlayerShip := { demoShip with Alive := false }

/-- A dead invader. -/
def deadInvader : Invader := { (NewInvader .Small 100 80 30 clock0).1 with Alive := false }

/-- A dead bullet. -/
def deadBullet : Bullet := { NewBullet 10 10 0 (-400) true with Alive := false }

/-- A dead UFO. -/
def deadUFO : UFO := { (NewUFO (-50) 50 1 clock0).1 with Alive := false }

/-- A live small invader as placed by the wave grid. -/
def liveInvader : Invader := (NewInvader .Small 100 80 30 clock0).1

/-- A player ship whose position (x = 5) lies beyond the left screen margin,
so that the clamping branch of PlayerShip.Update fires. -/
def clampShip : PlayerShip := (NewPlayerShip 5 100 clock0).1

/-- A live player bullet. -/
def demoBullet : Bullet := NewBullet 100 80 0 (-400) true

/-- An engine in Playing mode with the demo player, for exercising the
analog-input path. -/
def analogEngine : Engine := { demoEngine with state := demoPlayingState }

/-- The index of the first live invader in list order whose bounds the
given bounds strictly intersect: the specification's reading of the inner
collision loop, to compare scanHit against. -/
def specFirstHitIdx (bb : Bounds) : List Invader → Option ℕ
  | [] => none
  | inv :: rest =>
    if inv.Alive && bb.Intersects inv.Bounds then some 0
    else (specFirstHitIdx bb rest).map (· + 1)

/-! Frame lemmas: the per-tick pipeline never reads or writes the
DeltaTime reference field, the pause flag, the fixed step or the
accumulator. They are proved stage by stage and compose into
Engine.fixedUpdate. -/

theorem GameState.GameOver_DT (gs : GameState) (v : R) :
    ({ gs with DeltaTime := v } : GameState).GameOver = { gs.GameOver with DeltaTime := v } := by
  obtain ⟨M, Pa, Gs, Ge, Pl, Lv, Sc, Hs, Iv, Bu, Uf, Ba, Wa, Wc, Lu, Dt, Sw, Sh, Fd, Ip⟩ := gs
  simp only [GameState.GameOver]
  split <;> rfl

theorem GameState.GameOver_ctl (gs : GameState) :
    (gs.GameOver.Paused, gs.GameOver.FixedDeltaTime, gs.GameOver.DeltaTime) =
      (gs.Paused, gs.FixedDeltaTime, gs.DeltaTime) := by
  obtain ⟨M, Pa, Gs, Ge, Pl, Lv, Sc, Hs, Iv, Bu, Uf, Ba, Wa, Wc, Lu, Dt, Sw, Sh, Fd, Ip⟩ := gs
  simp only [GameState.GameOver]
  split <;> rfl

theorem Engine.ghost_mk (st : GameState) (lu gt : ℤ) (mt dt2 ms dd mi bs ac : R)
    (ck : Clock) (a v : R) :
    (Engine.mk st lu gt mt dt2 ms dd mi bs ac ck).ghost a v =
      Engine.mk { st with DeltaTime := v } lu gt mt dt2 ms dd mi bs a ck := rfl

theorem Engine.ctl_mk (st : GameState) (lu gt : ℤ) (mt dt2 ms dd mi bs ac : R)
    (ck : Clock) :
    (Engine.mk st lu gt mt dt2 ms dd mi bs ac ck).ctl =
      (st.Paused, st.FixedDeltaTime, st.DeltaTime, ac) := rfl

theorem Engine.playerStage_ghost (e : Engine) (a v d : R) :
    (e.ghost a v).playerStage d = (e.playerStage d).ghost a v := by
  obtain ⟨⟨M, Pa, Gs, Ge, Pl, Lv, Sc, Hs, Iv, Bu, Uf, Ba, Wa, Wc, Lu, Dt, Sw, Sh, Fd, Ip⟩,
    lu, gt, mt, dt2, ms, dd, mi, bs, ac, ck⟩ := e
  cases Pl <;> rfl

theorem Engine.playerStage_ctl (e : Engine) (d : R) :
    (e.playerStage d).ctl = e.ctl := by
  obtain ⟨⟨M, Pa, Gs, Ge, Pl, Lv, Sc, Hs, Iv, Bu, Uf, Ba, Wa, Wc, Lu, Dt, Sw, Sh, Fd, Ip⟩,
    lu, gt, mt, dt2, ms, dd, mi, bs, ac, ck⟩ := e
  cases Pl <;> rfl

theorem Engine.updateInvaders_ghost (e : Engine) (a v d : R) :
    (e.ghost a v).updateInvaders d = (e.updateInvaders d).ghost a v := by
  obtain ⟨⟨M, Pa, Gs, Ge, Pl, Lv, Sc, Hs, Iv, Bu, Uf, Ba, Wa, Wc, Lu, Dt, Sw, Sh, Fd, Ip⟩,
    lu, gt, mt, dt2, ms, dd, mi, bs, ac, ck⟩ := e
  simp only [Engine.updateInvaders, Engine.updateInvaderFormation,
    Engine.checkInvaderReachBottom, GameState.GameOver, Engine.ghost_mk]
  (repeat' split) <;> simp_all <;> (repeat' split) <;> rfl

theorem Engine.updateInvaders_ctl (e : Engine) (d : R) :
    (e.updateInvaders d).ctl = e.ctl := by
  obtain ⟨⟨M, Pa, Gs, Ge, Pl, Lv, Sc, Hs, Iv, Bu, Uf, Ba, Wa, Wc, Lu, Dt, Sw, Sh, Fd, Ip⟩,
    lu, gt, mt, dt2, ms, dd, mi, bs, ac, ck⟩ := e
  simp only [Engine.updateInvaders, Engine.updateInvaderFormation,
    Engine.checkInvaderReachBottom, GameState.GameOver, Engine.ctl_mk]
  (repeat' split) <;> simp_all <;> (repeat' split) <;> rfl

theorem Engine.updateBullets_ghost (e : Engine) (a v d : R) :
    (e.ghost a v).updateBullets d = (e.updateBullets d).ghost a v := by
  obtain ⟨⟨M, Pa, Gs, Ge, Pl, Lv, Sc, Hs, Iv, Bu, Uf, Ba, Wa, Wc, Lu, Dt, Sw, Sh, Fd, Ip⟩,
    lu, gt, mt, dt2, ms, dd, mi, bs, ac, ck⟩ := e
  rfl

theorem Engine.updateBullets_ctl (e : Engine) (d : R) :
    (e.updateBullets d).ctl = e.ctl := by
  obtain ⟨⟨M, Pa, Gs, Ge, Pl, Lv, Sc, Hs, Iv, Bu, Uf, Ba, Wa, Wc, Lu, Dt, Sw, Sh, Fd, Ip⟩,
    lu, gt, mt, dt2, ms, dd, mi, bs, ac, ck⟩ := e
  rfl

theorem Engine.updateUFO_ghost (e : Engine) (a v d : R) :
    (e.ghost a v).updateUFO d = (e.updateUFO d).ghost a v := by
  obtain ⟨⟨M, Pa, Gs, Ge, Pl, Lv, Sc, Hs, Iv, Bu, Uf, Ba, Wa, Wc, Lu, Dt, Sw, Sh, Fd, Ip⟩,
    lu, gt, mt, dt2, ms, dd, mi, bs, ac, ck⟩ := e
  cases Uf <;> rfl

theorem Engine.updateUFO_ctl (e : Engine) (d : R) :
    (e.updateUFO d).ctl = e.ctl := by
  obtain ⟨⟨M, Pa, Gs, Ge, Pl, Lv, Sc, Hs, Iv, Bu, Uf, Ba, Wa, Wc, Lu, Dt, Sw, Sh, Fd, Ip⟩,
    lu, gt, mt, dt2, ms, dd, mi, bs, ac, ck⟩ := e
  cases Uf <;> rfl

theorem Engine.handlePlayerBulletCollisions_ghost (e : Engine) (a v : R) :
    (e.ghost a v).handlePlayerBulletCollisions = e.handlePlayerBulletCollisions.ghost a v := by
  obtain ⟨⟨M, Pa, Gs, Ge, Pl, Lv, Sc, Hs, Iv, Bu, Uf, Ba, Wa, Wc, Lu, Dt, Sw, Sh, Fd, Ip⟩,
    lu, gt, mt, dt2, ms, dd, mi, bs, ac, ck⟩ := e
  rfl

theorem Engine.handlePlayerBulletCollisions_ctl (e : Engine) :
    e.handlePlayerBulletCollisions.ctl = e.ctl := by
  obtain ⟨⟨M, Pa, Gs, Ge, Pl, Lv, Sc, Hs, Iv, Bu, Uf, Ba, Wa, Wc, Lu, Dt, Sw, Sh, Fd, Ip⟩,
    lu, gt, mt, dt2, ms, dd, mi, bs, ac, ck⟩ := e
  rfl

theorem Engine.handlePlayerBulletUFOCollisions_ghost (e : Engine) (a v : R) :
    (e.ghost a v).handlePlayerBulletUFOCollisions =
      e.handlePlayerBulletUFOCollisions.ghost a v := by
  obtain ⟨⟨M, Pa, Gs, Ge, Pl, Lv, Sc, Hs, Iv, Bu, Uf, Ba, Wa, Wc, Lu, Dt, Sw, Sh, Fd, Ip⟩,
    lu, gt, mt, dt2, ms, dd, mi, bs, ac, ck⟩ := e
  cases Uf <;> simp only [Engine.handlePlayerBulletUFOCollisions, GameState.AddScore,
    Engine.ghost] <;> (repeat' split) <;> rfl

theorem Engine.handlePlayerBulletUFOCollisions_ctl (e : Engine) :
    e.handlePlayerBulletUFOCollisions.ctl = e.ctl := by
  obtain ⟨⟨M, Pa, Gs, Ge, Pl, Lv, Sc, Hs, Iv, Bu, Uf, Ba, Wa, Wc, Lu, Dt, Sw, Sh, Fd, Ip⟩,
    lu, gt, mt, dt2, ms, dd, mi, bs, ac, ck⟩ := e
  cases Uf <;> simp only [Engine.handlePlayerBulletUFOCollisions, GameState.AddScore,
    Engine.ctl] <;> (repeat' split) <;> rfl

theorem Engine.handleEnemyBulletCollisions_ghost (e : Engine) (a v : R) :
    (e.ghost a v).handleEnemyBulletCollisions =
      e.handleEnemyBulletCollisions.ghost a v := by
  obtain ⟨⟨M, Pa, Gs, Ge, Pl, Lv, Sc, Hs, Iv, Bu, Uf, Ba, Wa, Wc, Lu, Dt, Sw, Sh, Fd, Ip⟩,
    lu, gt, mt, dt2, ms, dd, mi, bs, ac, ck⟩ := e
  cases Pl <;> simp only [Engine.handleEnemyBulletCollisions, GameState.LoseLife,
    GameState.GameOver, Engine.ghost] <;> (repeat' split) <;> rfl

theorem Engine.handleEnemyBulletCollisions_ctl (e : Engine) :
    e.handleEnemyBulletCollisions.ctl = e.ctl := by
  obtain ⟨⟨M, Pa, Gs, Ge, Pl, Lv, Sc, Hs, Iv, Bu, Uf, Ba, Wa, Wc, Lu, Dt, Sw, Sh, Fd, Ip⟩,
    lu, gt, mt, dt2, ms, dd, mi, bs, ac, ck⟩ := e
  cases Pl <;> simp only [Engine.handleEnemyBulletCollisions, GameState.LoseLife,
    GameState.GameOver, Engine.ctl] <;> (repeat' split) <;> rfl

theorem Engine.checkGameConditions_ghost (e : Engine) (a v : R) :
    (e.ghost a v).checkGameConditions = e.checkGameConditions.ghost a v := by
  obtain ⟨⟨M, Pa, Gs, Ge, Pl, Lv, Sc, Hs, Iv, Bu, Uf, Ba, Wa, Wc, Lu, Dt, Sw, Sh, Fd, Ip⟩,
    lu, gt, mt, dt2, ms, dd, mi, bs, ac, ck⟩ := e
  simp only [Engine.checkGameConditions, GameState.IsWaveCleared, GameState.NextWave,
    GameState.initializeInvaders, Engine.resetInvaderMovement, Engine.ghost]
  (repeat' split) <;> rfl

theorem Engine.checkGameConditions_ctl (e : Engine) :
    e.checkGameConditions.ctl = e.ctl := by
  obtain ⟨⟨M, Pa, Gs, Ge, Pl, Lv, Sc, Hs, Iv, Bu, Uf, Ba, Wa, Wc, Lu, Dt, Sw, Sh, Fd, Ip⟩,
    lu, gt, mt, dt2, ms, dd, mi, bs, ac, ck⟩ := e
  simp only [Engine.checkGameConditions, GameState.IsWaveCleared, GameState.NextWave,
    GameState.initializeInvaders, Engine.resetInvaderMovement, Engine.ctl]
  (repeat' split) <;> rfl

theorem Engine.maybeSpawnUFO_ghost (e : Engine) (a v : R) :
    (e.ghost a v).maybeSpawnUFO = e.maybeSpawnUFO.ghost a v := by
  obtain ⟨⟨M, Pa, Gs, Ge, Pl, Lv, Sc, Hs, Iv, Bu, Uf, Ba, Wa, Wc, Lu, Dt, Sw, Sh, Fd, Ip⟩,
    lu, gt, mt, dt2, ms, dd, mi, bs, ac, ck⟩ := e
  cases Uf <;> simp only [Engine.maybeSpawnUFO, Engine.ghost] <;> (repeat' split) <;> rfl

theorem Engine.maybeSpawnUFO_ctl (e : Engine) :
    e.maybeSpawnUFO.ctl = e.ctl := by
  obtain ⟨⟨M, Pa, Gs, Ge, Pl, Lv, Sc, Hs, Iv, Bu, Uf, Ba, Wa, Wc, Lu, Dt, Sw, Sh, Fd, Ip⟩,
    lu, gt, mt, dt2, ms, dd, mi, bs, ac, ck⟩ := e
  cases Uf <;> simp only [Engine.maybeSpawnUFO, Engine.ctl] <;> (repeat' split) <;> rfl

theorem Engine.updatePlaying_ghost (e : Engine) (a v d : R) :
    (e.ghost a v).updatePlaying d = (e.updatePlaying d).ghost a v := by
  simp only [Engine.updatePlaying, Engine.handleCollisions]
  rw [Engine.playerStage_ghost, Engine.updateInvaders_ghost, Engine.updateBullets_ghost,
    Engine.updateUFO_ghost, Engine.handlePlayerBulletCollisions_ghost,
    Engine.handlePlayerBulletUFOCollisions_ghost, Engine.handleEnemyBulletCollisions_ghost,
    Engine.checkGameConditions_ghost, Engine.maybeSpawnUFO_ghost]

theorem Engine.updatePlaying_ctl (e : Engine) (d : R) :
    (e.updatePlaying d).ctl = e.ctl := by
  simp only [Engine.updatePlaying, Engine.handleCollisions]
  rw [Engine.maybeSpawnUFO_ctl, Engine.checkGameConditions_ctl,
    Engine.handleEnemyBulletCollisions_ctl, Engine.handlePlayerBulletUFOCollisions_ctl,
    Engine.handlePlayerBulletCollisions_ctl, Engine.updateUFO_ctl, Engine.updateBullets_ctl,
    Engine.updateInvaders_ctl, Engine.playerStage_ctl]

theorem Engine.fixedUpdate_ghost (e : Engine) (a v d : R) :
    (e.ghost a v).fixedUpdate d = (e.fixedUpdate d).ghost a v := by
  have hmode : (e.ghost a v).state.Mode = e.state.Mode := rfl
  simp only [Engine.fixedUpdate, hmode]
  cases e.state.Mode with
  | AttractMode => rfl
  | Playing => exact e.updatePlaying_ghost a v d
  | GameOver => rfl
  | HighScore => rfl

theorem Engine.fixedUpdate_ctl (e : Engine) (d : R) :
    (e.fixedUpdate d).ctl = e.ctl := by
  simp only [Engine.fixedUpdate]
  cases e.state.Mode with
  | AttractMode => rfl
  | Playing => exact e.updatePlaying_ctl d
  | GameOver => rfl
  | HighScore => rfl

theorem Engine.fixedUpdate_Paused (e : Engine) (d : R) :
    (e.fixedUpdate d).state.Paused = e.state.Paused :=
  congrArg (fun t => t.1) (e.fixedUpdate_ctl d)

theorem Engine.fixedUpdate_FDT (e : Engine) (d : R) :
    (e.fixedUpdate d).state.FixedDeltaTime = e.state.FixedDeltaTime :=
  congrArg (fun t => t.2.1) (e.fixedUpdate_ctl d)

theorem Engine.fixedUpdate_DT (e : Engine) (d : R) :
    (e.fixedUpdate d).state.DeltaTime = e.state.DeltaTime :=
  congrArg (fun t => t.2.2.1) (e.fixedUpdate_ctl d)

theorem Engine.step_state (e : Engine) :
    e.step.state = (e.fixedUpdate e.state.FixedDeltaTime).state := rfl

theorem Engine.step_acc (e : Engine) :
    e.step.accumulator = e.accumulator - e.state.FixedDeltaTime := rfl

theorem Engine.step_Paused (e : Engine) :
    e.step.state.Paused = e.state.Paused := by
  rw [Engine.step_state, Engine.fixedUpdate_Paused]

theorem Engine.step_FDT (e : Engine) :
    e.step.state.FixedDeltaTime = e.state.FixedDeltaTime := by
  rw [Engine.step_state, Engine.fixedUpdate_FDT]

theorem Engine.step_DT (e : Engine) :
    e.step.state.DeltaTime = e.state.DeltaTime := by
  rw [Engine.step_state, Engine.fixedUpdate_DT]

theorem Engine.setDT_eq_ghost (e : Engine) (v : R) :
    e.setDT v = e.ghost e.accumulator v := rfl

theorem Engine.step_setDT (e : Engine) (v : R) :
    (e.setDT v).step = e.step.setDT v := by
  simp only [Engine.step]
  rw [Engine.setDT_eq_ghost, Engine.fixedUpdate_ghost]
  rfl

/-- The fuelled loop coincides with iterating step when the fuel is the
floor count the loop will actually take. -/
theorem Engine.runFixedAux_iterate : ∀ (n : ℕ) (e : Engine),
    0 < e.state.FixedDeltaTime →
    (⌊e.accumulator / e.state.FixedDeltaTime⌋).toNat = n →
    Engine.runFixedAux n e = Engine.step^[n] e := by
  intro n
  induction n with
  | zero => intro e _ _; rfl
  | succ k ih =>
    intro e hF hn
    have hfloor : ⌊e.accumulator / e.state.FixedDeltaTime⌋ = (k : ℤ) + 1 := by omega
    have hone : (1 : ℚ) ≤ e.accumulator / e.state.FixedDeltaTime := by
      have h1 : (1 : ℤ) ≤ ⌊e.accumulator / e.state.FixedDeltaTime⌋ := by omega
      exact_mod_cast (Int.le_floor).mp h1
    have hle : e.state.FixedDeltaTime ≤ e.accumulator := (one_le_div hF).mp hone
    have hguard : 0 < e.state.FixedDeltaTime ∧ e.state.FixedDeltaTime ≤ e.accumulator :=
      ⟨hF, hle⟩
    have hstepF : e.step.state.FixedDeltaTime = e.state.FixedDeltaTime := e.step_FDT
    have hstepacc : e.step.accumulator = e.accumulator - e.state.FixedDeltaTime := e.step_acc
    have hdiv : e.step.accumulator / e.step.state.FixedDeltaTime =
        e.accumulator / e.state.FixedDeltaTime - 1 := by
      rw [hstepF, hstepacc, sub_div, div_self (ne_of_gt hF)]
    have hnext : (⌊e.step.accumulator / e.step.state.FixedDeltaTime⌋).toNat = k := by
      rw [hdiv]
      have : ⌊e.accumulator / e.state.FixedDeltaTime - 1⌋ =
          ⌊e.accumulator / e.state.FixedDeltaTime⌋ - 1 := by
        exact_mod_cast Int.floor_sub_int (e.accumulator / e.state.FixedDeltaTime) 1
      omega
    calc Engine.runFixedAux (k + 1) e = Engine.runFixedAux k e.step := by
          simp only [Engine.runFixedAux, if_pos hguard]
      _ = Engine.step^[k] e.step := ih e.step (hstepF ▸ hF) hnext
      _ = Engine.step^[k + 1] e := (Function.iterate_succ_apply Engine.step k e).symm

/-- The loop runs exactly the banked number of whole steps. -/
theorem Engine.runFixed_iterate (e : Engine) (hF : 0 < e.state.FixedDeltaTime) :
    e.runFixed = Engine.step^[(⌊e.accumulator / e.state.FixedDeltaTime⌋).toNat] e :=
  Engine.runFixedAux_iterate _ e hF rfl

/-- The Go loop equation: while the accumulator holds a full (positive)
fixed step, tick and subtract. -/
theorem Engine.runFixed_eq (e : Engine) :
    e.runFixed =
      if 0 < e.state.FixedDeltaTime ∧ e.state.FixedDeltaTime ≤ e.accumulator then
        e.step.runFixed
      else e := by
  by_cases hguard : 0 < e.state.FixedDeltaTime ∧ e.state.FixedDeltaTime ≤ e.accumulator
  · rw [if_pos hguard]
    obtain ⟨hF, hle⟩ := hguard
    have hone : (1 : ℚ) ≤ e.accumulator / e.state.FixedDeltaTime := (one_le_div hF).mpr hle
    have h1 : (1 : ℤ) ≤ ⌊e.accumulator / e.state.FixedDeltaTime⌋ := Int.le_floor.mpr (by exact_mod_cast hone)
    have hstepF : e.step.state.FixedDeltaTime = e.state.FixedDeltaTime := e.step_FDT
    have hdiv : e.step.accumulator / e.step.state.FixedDeltaTime =
        e.accumulator / e.state.FixedDeltaTime - 1 := by
      rw [hstepF, Engine.step_acc, sub_div, div_self (ne_of_gt hF)]
    have hfs : ⌊e.accumulator / e.state.FixedDeltaTime - 1⌋ =
        ⌊e.accumulator / e.state.FixedDeltaTime⌋ - 1 := by
      exact_mod_cast Int.floor_sub_int (e.accumulator / e.state.FixedDeltaTime) 1
    have hsum : (⌊e.accumulator / e.state.FixedDeltaTime⌋).toNat =
        (⌊e.step.accumulator / e.step.state.FixedDeltaTime⌋).toNat + 1 := by
      rw [hdiv, hfs]; omega
    rw [Engine.runFixed_iterate e hF, Engine.runFixed_iterate e.step (hstepF ▸ hF), hsum,
      Function.iterate_succ_apply]
  · rw [if_neg hguard]
    show Engine.runFixedAux _ e = e
    cases hn : (⌊e.accumulator / e.state.FixedDeltaTime⌋).toNat with
    | zero => rfl
    | succ k => simp only [Engine.runFixedAux, if_neg hguard]

theorem Engine.Update_paused (e : Engine) (dt : R) (h : e.state.Paused = true) :
    e.Update dt = e.setDT dt := by
  simp only [Engine.Update, Engine.setDT]
  split
  · rfl
  · next hcond => exact absurd h hcond

theorem Engine.Update_not_paused (e : Engine) (dt : R) (h : e.state.Paused = false) :
    e.Update dt = Engine.runFixed (e.ghost (e.accumulator + dt) dt) := by
  simp only [Engine.Update]
  split
  · next hcond => rw [show ({ e with state := { e.state with DeltaTime := dt } } : Engine).state.Paused = e.state.Paused from rfl, h] at hcond; cases hcond
  · rfl

theorem Engine.ghost_ghost (e : Engine) (a v a' v' : R) :
    (e.ghost a v).ghost a' v' = e.ghost a' v' := rfl

theorem Engine.ghost_acc (e : Engine) (a v : R) : (e.ghost a v).accumulator = a := rfl

theorem Engine.ghost_Paused (e : Engine) (a v : R) :
    (e.ghost a v).state.Paused = e.state.Paused := rfl

theorem Engine.ghost_FDT (e : Engine) (a v : R) :
    (e.ghost a v).state.FixedDeltaTime = e.state.FixedDeltaTime := rfl

theorem Engine.setDT_ghost (e : Engine) (a v w : R) :
    (e.ghost a v).setDT w = e.ghost a w := rfl

theorem Engine.setDT_eq_ghost_self (e : Engine) (v : R) :
    e.setDT v = e.ghost e.accumulator v := rfl

theorem Engine.step_ghost (e : Engine) (a v : R) :
    (e.ghost a v).step = e.step.ghost (a - e.state.FixedDeltaTime) v := by
  simp only [Engine.step]
  rw [Engine.fixedUpdate_ghost]
  rfl

theorem Engine.step_iterate_FDT (e : Engine) : ∀ n : ℕ,
    (Engine.step^[n] e).state.FixedDeltaTime = e.state.FixedDeltaTime := by
  intro n
  induction n generalizing e with
  | zero => rfl
  | succ k ih =>
    rw [Function.iterate_succ_apply, ih e.step, Engine.step_FDT]

theorem Engine.step_iterate_Paused (e : Engine) : ∀ n : ℕ,
    (Engine.step^[n] e).state.Paused = e.state.Paused := by
  intro n
  induction n generalizing e with
  | zero => rfl
  | succ k ih =>
    rw [Function.iterate_succ_apply, ih e.step, Engine.step_Paused]

theorem Engine.step_iterate_ghost (e : Engine) : ∀ (n : ℕ) (a v : R),
    Engine.step^[n] (e.ghost a v) =
      (Engine.step^[n] e).ghost (a - n * e.state.FixedDeltaTime) v := by
  intro n
  induction n generalizing e with
  | zero =>
    intro a v
    rw [Function.iterate_zero_apply, Function.iterate_zero_apply]
    congr 1
    push_cast
    ring
  | succ k ih =>
    intro a v
    rw [Function.iterate_succ_apply, Function.iterate_succ_apply, Engine.step_ghost,
      ih e.step, Engine.step_FDT]
    congr 1
    push_cast
    ring

theorem floor_div_add_nat (acc F : R) (n : ℕ) (h0 : 0 ≤ acc) (h1 : acc < F) :
    ⌊(acc + n * F) / F⌋ = n := by
  have hF : 0 < F := lt_of_le_of_lt h0 h1
  rw [add_div, mul_div_assoc, div_self (ne_of_gt hF), mul_one,
    show ((n : R)) = ((n : ℤ) : R) by push_cast; ring, Int.floor_add_int,
    Int.floor_eq_zero_iff.mpr ⟨div_nonneg h0 (le_of_lt hF), (div_lt_one hF).mpr h1⟩]
  omega

/-- Normal form of one Update call on an unpaused engine whose accumulator
holds less than one fixed step: exactly n ticks run and the accumulator
returns to its sub-step remainder. -/
theorem Engine.Update_normal (e : Engine) (n : ℕ) (hp : e.state.Paused = false)
    (h0 : 0 ≤ e.accumulator) (h1 : e.accumulator < e.state.FixedDeltaTime) :
    e.Update ((n : R) * e.state.FixedDeltaTime) =
      (Engine.step^[n] e).ghost e.accumulator ((n : R) * e.state.FixedDeltaTime) := by
  have hF : 0 < e.state.FixedDeltaTime := lt_of_le_of_lt h0 h1
  rw [Engine.Update_not_paused e _ hp]
  rw [Engine.runFixed_iterate _ (by rw [Engine.ghost_FDT]; exact hF)]
  rw [show (e.ghost (e.accumulator + (n : R) * e.state.FixedDeltaTime)
        ((n : R) * e.state.FixedDeltaTime)).accumulator /
      (e.ghost (e.accumulator + (n : R) * e.state.FixedDeltaTime)
        ((n : R) * e.state.FixedDeltaTime)).state.FixedDeltaTime =
      (e.accumulator + (n : R) * e.state.FixedDeltaTime) / e.state.FixedDeltaTime from rfl]
  rw [floor_div_add_nat _ _ n h0 h1, Int.toNat_natCast]
  rw [Engine.step_iterate_ghost]
  congr 1
  ring

/-- Iterating Update at the fixed step on an unpaused engine: after N calls
the engine is N ticks ahead with the original remainder banked and the last
written DeltaTime equal to the fixed step. -/
theorem Engine.iterate_Update_normal (e : Engine) (hp : e.state.Paused = false)
    (h0 : 0 ≤ e.accumulator) (h1 : e.accumulator < e.state.FixedDeltaTime) :
    ∀ N : ℕ, 0 < N →
      (fun x => x.Update e.state.FixedDeltaTime)^[N] e =
        (Engine.step^[N] e).ghost e.accumulator e.state.FixedDeltaTime := by
  intro N
  induction N with
  | zero => intro h; cases h
  | succ k ih =>
    intro _
    rcases Nat.eq_zero_or_pos k with hk | hk
    · subst hk
      rw [Function.iterate_one]
      have h := e.Update_normal 1 hp h0 h1
      rw [Nat.cast_one, one_mul] at h
      exact h
    · rw [Function.iterate_succ_apply', ih hk]
      set Y := (Engine.step^[k] e).ghost e.accumulator e.state.FixedDeltaTime with hY
      have hYF : Y.state.FixedDeltaTime = e.state.FixedDeltaTime := by
        rw [hY, Engine.ghost_FDT, Engine.step_iterate_FDT]
      have hYp : Y.state.Paused = false := by
        rw [hY, Engine.ghost_Paused, Engine.step_iterate_Paused]; exact hp
      have hYa : Y.accumulator = e.accumulator := by rw [hY, Engine.ghost_acc]
      have h := Y.Update_normal 1 hYp (by rw [hYa]; exact h0)
        (by rw [hYa, hYF]; exact h1)
      rw [Nat.cast_one, one_mul, hYF] at h
      rw [h, hYa, hY, Function.iterate_one, Engine.step_ghost, Engine.ghost_ghost,
        Function.iterate_succ_apply' Engine.step k e]

/-- Iterating Update on a paused engine only rewrites DeltaTime. -/
theorem Engine.iterate_Update_paused (e : Engine) (hp : e.state.Paused = true) (dt : R) :
    ∀ N : ℕ, 0 < N → (fun x => x.Update dt)^[N] e = e.setDT dt := by
  intro N
  induction N with
  | zero => intro h; cases h
  | succ k ih =>
    intro _
    rcases Nat.eq_zero_or_pos k with hk | hk
    · subst hk
      rw [Function.iterate_one]
      exact e.Update_paused dt hp
    · rw [Function.iterate_succ_apply', ih hk,
        Engine.Update_paused _ dt (by rw [Engine.setDT_eq_ghost_self, Engine.ghost_Paused]; exact hp)]
      rfl

theorem Engine.setDT_setDT (e : Engine) (v w : R) : (e.setDT v).setDT w = e.setDT w := rfl

theorem Engine.setDT_acc (e : Engine) (v : R) : (e.setDT v).accumulator = e.accumulator := rfl

/-- C1 (amended): with randomness and wall-clock effects held fixed (the
explicit oracle), calling Update(fixedStep) N times from any state whose
accumulator holds its reachable sub-step remainder (0 <= accumulator <
fixedStep, as Update itself maintains) produces a state identical to one
Update(N*fixedStep) call in every field except the DeltaTime reference
field, which records the argument of the last call (fixedStep versus
N*fixedStep); both runs execute one fixed tick per full fixedStep contained
in the accumulator and leave the same sub-step remainder banked. The
unamended claim (states identical) fails only on DeltaTime, see the
counterexample. -/
theorem c1_update_round_trip (e : Engine) (N : ℕ)
    (h0 : 0 ≤ e.accumulator) (h1 : e.accumulator < e.state.FixedDeltaTime) :
    (((fun x => x.Update e.state.FixedDeltaTime)^[N] e).setDT 0 =
      (e.Update ((N : R) * e.state.FixedDeltaTime)).setDT 0) ∧
    ((fun x => x.Update e.state.FixedDeltaTime)^[N] e).accumulator = e.accumulator ∧
    (e.Update ((N : R) * e.state.FixedDeltaTime)).accumulator = e.accumulator := by
  cases hp : e.state.Paused with
  | false =>
    rcases Nat.eq_zero_or_pos N with hN | hN
    · subst hN
      rw [Function.iterate_zero_apply, e.Update_normal 0 hp h0 h1,
        Function.iterate_zero_apply]
      exact ⟨rfl, rfl, rfl⟩
    · rw [e.iterate_Update_normal hp h0 h1 N hN, e.Update_normal N hp h0 h1]
      exact ⟨rfl, rfl, rfl⟩
  | true =>
    rcases Nat.eq_zero_or_pos N with hN | hN
    · subst hN
      rw [Function.iterate_zero_apply, e.Update_paused _ hp]
      exact ⟨rfl, rfl, rfl⟩
    · rw [e.iterate_Update_paused hp _ N hN, e.Update_paused _ hp]
      exact ⟨rfl, rfl, rfl⟩

/-- Witness for C1 at a concrete engine: the fresh engine has accumulator 0,
below its fixed step 1/20, and two calls at the fixed step match one call at
twice the step up to the DeltaTime field. -/
theorem c1_update_round_trip_witness :
    (0 ≤ demoEngine.accumulator ∧
      demoEngine.accumulator < demoEngine.state.FixedDeltaTime) ∧
    ((((fun x => x.Update demoEngine.state.FixedDeltaTime)^[2] demoEngine).setDT 0 =
        (demoEngine.Update (((2 : ℕ) : R) * demoEngine.state.FixedDeltaTime)).setDT 0) ∧
      ((fun x => x.Update demoEngine.state.FixedDeltaTime)^[2] demoEngine).accumulator =
        demoEngine.accumulator ∧
      (demoEngine.Update (((2 : ℕ) : R) * demoEngine.state.FixedDeltaTime)).accumulator =
        demoEngine.accumulator) :=
  have h0 : 0 ≤ demoEngine.accumulator := le_of_eq rfl
  have h1 : demoEngine.accumulator < demoEngine.state.FixedDeltaTime := by
    rw [show demoEngine.accumulator = 0 from rfl,
      show demoEngine.state.FixedDeltaTime = 1/20 from rfl]
    norm_num
  ⟨⟨h0, h1⟩, c1_update_round_trip demoEngine 2 h0 h1⟩

/-- Counterexample to C1 as stated: on the fresh (unpaused, attract-mode)
engine, two Update(1/20) calls do not produce a state identical to one
Update(2/20) call, because Update stores its own argument in the state's
DeltaTime field before anything else happens. -/
theorem c1_counterexample :
    (demoEngine.Update (1/20)).Update (1/20) ≠ demoEngine.Update (2 * (1/20)) := by
  have hp : demoEngine.state.Paused = false := rfl
  have h0 : 0 ≤ demoEngine.accumulator := le_of_eq rfl
  have h1 : demoEngine.accumulator < demoEngine.state.FixedDeltaTime := by
    rw [show demoEngine.accumulator = 0 from rfl,
      show demoEngine.state.FixedDeltaTime = 1/20 from rfl]
    norm_num
  have hF : demoEngine.state.FixedDeltaTime = 1/20 := rfl
  have hli : (demoEngine.Update (1/20)).Update (1/20) =
      (fun x => x.Update demoEngine.state.FixedDeltaTime)^[2] demoEngine := by
    rw [Function.iterate_succ_apply, Function.iterate_one, hF]
  have h2 : (2 : R) * (1/20) = ((2 : ℕ) : R) * demoEngine.state.FixedDeltaTime := by
    rw [hF]; norm_num
  intro h
  rw [hli, h2, demoEngine.iterate_Update_normal hp h0 h1 2 (by norm_num),
    demoEngine.Update_normal 2 hp h0 h1] at h
  have hd : ((Engine.step^[2] demoEngine).ghost demoEngine.accumulator
        demoEngine.state.FixedDeltaTime).state.DeltaTime =
      ((Engine.step^[2] demoEngine).ghost demoEngine.accumulator
        (((2 : ℕ) : R) * demoEngine.state.FixedDeltaTime)).state.DeltaTime :=
    congrArg (fun x => x.state.DeltaTime) h
  rw [show ∀ (x : Engine) (a v : R), (x.ghost a v).state.DeltaTime = v from fun _ _ _ => rfl,
    show ∀ (x : Engine) (a v : R), (x.ghost a v).state.DeltaTime = v from fun _ _ _ => rfl,
    hF] at hd
  norm_num at hd

/-- C6 (amended): when the Paused flag is set, Engine.Update(dt) runs no
fixed tick and does not bank dt: the accumulator and every other part of the
state are unchanged, except that dt is still written into the DeltaTime
reference field (which the unamended claim — the whole GameState unchanged —
overlooks, see the counterexample). -/
theorem c6_paused_skips_update (e : Engine) (dt : R) (hp : e.state.Paused = true) :
    e.Update dt = e.setDT dt ∧
    (e.Update dt).accumulator = e.accumulator ∧
    (e.Update dt).state = { e.state with DeltaTime := dt } := by
  refine ⟨e.Update_paused dt hp, ?_, ?_⟩
  · rw [e.Update_paused dt hp, Engine.setDT_acc]
  · rw [e.Update_paused dt hp]; rfl

/-- Witness for C6 at a concrete paused engine. -/
theorem c6_paused_skips_update_witness :
    pausedEngine.state.Paused = true ∧
    pausedEngine.Update (1/20) = pausedEngine.setDT (1/20) ∧
    (pausedEngine.Update (1/20)).accumulator = pausedEngine.accumulator :=
  ⟨rfl, (c6_paused_skips_update pausedEngine (1/20) rfl).1,
    (c6_paused_skips_update pausedEngine (1/20) rfl).2.1⟩

/-- Counterexample to C6 as stated: on a paused engine whose DeltaTime field
is 0, Update(1/20) does not leave the whole GameState unchanged — the
DeltaTime reference field becomes 1/20. -/
theorem c6_counterexample : pausedEngine.Update (1/20) ≠ pausedEngine := by
  intro h
  rw [pausedEngine.Update_paused (1/20) rfl] at h
  have hd : (pausedEngine.setDT (1/20)).state.DeltaTime = pausedEngine.state.DeltaTime :=
    congrArg (fun x => x.state.DeltaTime) h
  rw [show (pausedEngine.setDT (1/20)).state.DeltaTime = 1/20 from rfl,
    show pausedEngine.state.DeltaTime = 0 from rfl] at hd
  norm_num at hd

/-- C3: after AddScore(points) with non-negative points and after GameOver,
the state satisfies HighScore >= Score, and neither operation ever lowers
the high score (it is monotonically non-decreasing across both). -/
theorem c3_highscore_invariant (gs : GameState) (points : ℤ) (hp : 0 ≤ points) :
    ((gs.AddScore points).Score ≤ (gs.AddScore points).HighScore ∧
      gs.HighScore ≤ (gs.AddScore points).HighScore) ∧
    (gs.GameOver.Score ≤ gs.GameOver.HighScore ∧
      gs.HighScore ≤ gs.GameOver.HighScore) := by
  obtain ⟨M, Pa, Gs, Ge, Pl, Lv, Sc, Hs, Iv, Bu, Uf, Ba, Wa, Wc, Lu, Dt, Sw, Sh, Fd, Ip⟩ := gs
  simp only [GameState.AddScore, GameState.GameOver]
  refine ⟨⟨?_, ?_⟩, ?_, ?_⟩ <;> split <;> simp <;> omega

/-- Witness for C3 at a concrete state and score. -/
theorem c3_highscore_invariant_witness :
    (0 : ℤ) ≤ 10 ∧
    (((demoState.AddScore 10).Score ≤ (demoState.AddScore 10).HighScore ∧
      demoState.HighScore ≤ (demoState.AddScore 10).HighScore) ∧
    (demoState.GameOver.Score ≤ demoState.GameOver.HighScore ∧
      demoState.HighScore ≤ demoState.GameOver.HighScore)) :=
  ⟨by decide, c3_highscore_invariant demoState 10 (by decide)⟩

/-- C10: TogglePause inverts the Paused flag when the mode is Playing and
leaves the entire state unchanged in any other mode, so a pause press
outside Playing can never set Paused. -/
theorem c10_toggle_pause (gs : GameState) :
    (gs.Mode = GameMode.Playing → gs.TogglePause = { gs with Paused := !gs.Paused }) ∧
    (gs.Mode ≠ GameMode.Playing → gs.TogglePause = gs) := by
  constructor <;> intro h <;> simp [GameState.TogglePause, h]

/-- Witness for C10: a Playing state gets its flag inverted, an attract-mode
state is untouched. -/
theorem c10_toggle_pause_witness :
    (demoPlayingState.TogglePause =
      { demoPlayingState with Paused := !demoPlayingState.Paused }) ∧
    demoState.TogglePause = demoState :=
  ⟨(c10_toggle_pause demoPlayingState).1 rfl,
    (c10_toggle_pause demoState).2 (by decide)⟩

/-- C4: every operation on a dead entity (Alive = false) is a no-op: the
entity — position, velocity and bounds included — is returned unchanged, no
clock is consumed, and TryShoot yields no bullet. -/
theorem c4_dead_entities_inert (p : PlayerShip) (i : Invader) (b : Bullet) (u : UFO)
    (dt sw sh dx dy : R) (l r : Bool) (c : Clock)
    (hp : p.Alive = false) (hi : i.Alive = false) (hb : b.Alive = false)
    (hu : u.Alive = false) :
    p.Update dt sw c = (p, c) ∧ p.ApplyInput l r dt = p ∧ p.TryShoot c = (none, p, c) ∧
    i.Update dt = i ∧ i.Move dx dy = i ∧ i.TryShoot dt c = (none, i, c) ∧
    b.Update dt sw sh = b ∧
    u.Update dt sw c = (u, c) := by
  simp [PlayerShip.Update, PlayerShip.ApplyInput, PlayerShip.TryShoot, Invader.Update,
    Invader.Move, Invader.TryShoot, Bullet.Update, UFO.Update, hp, hi, hb, hu]

/-- Witness for C4 at concrete dead entities. -/
theorem c4_dead_entities_inert_witness :
    deadShip.Update (1/20) 800 clock0 = (deadShip, clock0) ∧
    deadShip.ApplyInput false false (1/20) = deadShip ∧
    deadShip.TryShoot clock0 = (none, deadShip, clock0) ∧
    deadInvader.Update (1/20) = deadInvader ∧
    deadInvader.Move 10 0 = deadInvader ∧
    deadInvader.TryShoot (1/20) clock0 = (none, deadInvader, clock0) ∧
    deadBullet.Update (1/20) 800 600 = deadBullet ∧
    deadUFO.Update (1/20) 800 clock0 = (deadUFO, clock0) :=
  c4_dead_entities_inert deadShip deadInvader deadBullet deadUFO
    (1/20) 800 600 10 0 false false clock0 rfl rfl rfl rfl

theorem buildInvaderGrid_length : ∀ (cells : List (ℕ × ℕ)) (c : Clock),
    (buildInvaderGrid c cells).1.length = cells.length := by
  intro cells
  induction cells with
  | nil => intro c; rfl
  | cons hd tl ih =>
    intro c
    obtain ⟨row, col⟩ := hd
    simp only [buildInvaderGrid]
    simp [ih]

theorem NewInvader_Alive (t : InvaderType) (x y : R) (pts : ℤ) (c : Clock) :
    (NewInvader t x y pts c).1.Alive = true := by
  cases t <;> rfl

theorem buildInvaderGrid_alive : ∀ (cells : List (ℕ × ℕ)) (c : Clock),
    ∀ inv ∈ (buildInvaderGrid c cells).1, inv.Alive = true := by
  intro cells
  induction cells with
  | nil => intro c inv h; cases h
  | cons hd tl ih =>
    intro c inv h
    obtain ⟨row, col⟩ := hd
    simp only [buildInvaderGrid, gridInvader, List.mem_cons] at h
    rcases h with h | h
    · rw [h]; exact NewInvader_Alive _ _ _ _ _
    · exact ih _ inv h

theorem gridCells_length : gridCells.length = 55 := rfl

/-- C7: NextWave adds exactly 1 to the wave number, clears the wave-cleared
flag, installs a fresh 55-invader grid (all alive), repositions the player
to the start position with its horizontal velocity zeroed, keeps exactly
the enemy bullets (every player bullet removed), and changes no other
field: mode, pause flag, lives, score, high score, started and ended flags,
UFO, barriers and screen dimensions are untouched. -/
theorem c7_next_wave (gs : GameState) (c : Clock) (p : PlayerShip)
    (hp : gs.Player = some p) :
    (gs.NextWave c).1.Wave = gs.Wave + 1 ∧
    (gs.NextWave c).1.WaveCleared = false ∧
    (gs.NextWave c).1.Invaders.length = 55 ∧
    (∀ inv ∈ (gs.NextWave c).1.Invaders, inv.Alive = true) ∧
    (gs.NextWave c).1.Player = some { p with
      Position := ⟨((Int.tdiv gs.ScreenWidth 2 : ℤ) : R), ((gs.ScreenHeight - 40 : ℤ) : R)⟩
      Velocity := { p.Velocity with X := 0 } } ∧
    (gs.NextWave c).1.Bullets = gs.Bullets.filter (fun b => !b.IsPlayerBullet) ∧
    (gs.NextWave c).1.Score = gs.Score ∧
    (gs.NextWave c).1.Lives = gs.Lives ∧
    (gs.NextWave c).1.HighScore = gs.HighScore ∧
    (gs.NextWave c).1.Mode = gs.Mode ∧
    (gs.NextWave c).1.Paused = gs.Paused ∧
    (gs.NextWave c).1.GameStarted = gs.GameStarted ∧
    (gs.NextWave c).1.GameEnded = gs.GameEnded ∧
    (gs.NextWave c).1.UFO = gs.UFO ∧
    (gs.NextWave c).1.Barriers = gs.Barriers ∧
    (gs.NextWave c).1.ScreenWidth = gs.ScreenWidth ∧
    (gs.NextWave c).1.ScreenHeight = gs.ScreenHeight ∧
    (gs.NextWave c).1.FixedDeltaTime = gs.FixedDeltaTime := by
  obtain ⟨M, Pa, Gs, Ge, Pl, Lv, Sc, Hs, Iv, Bu, Uf, Ba, Wa, Wc, Lu, Dt, Sw, Sh, Fd, Ip⟩ := gs
  simp only [GameState.Player] at hp
  subst hp
  refine ⟨rfl, rfl, ?_, ?_, rfl, rfl, rfl, rfl, rfl, rfl, rfl, rfl, rfl, rfl, rfl, rfl,
    rfl, rfl⟩
  · exact (buildInvaderGrid_length gridCells c).trans gridCells_length
  · exact fun inv h => buildInvaderGrid_alive gridCells c inv h

/-- Witness for C7 at a concrete Playing state with a player present. -/
theorem c7_next_wave_witness :
    (demoPlayingState.NextWave clock0).1.Wave = demoPlayingState.Wave + 1 ∧
    (demoPlayingState.NextWave clock0).1.WaveCleared = false ∧
    (demoPlayingState.NextWave clock0).1.Invaders.length = 55 ∧
    (∀ inv ∈ (demoPlayingState.NextWave clock0).1.Invaders, inv.Alive = true) ∧
    (demoPlayingState.NextWave clock0).1.Player = some { demoShip with
      Position := ⟨((Int.tdiv demoPlayingState.ScreenWidth 2 : ℤ) : R),
        ((demoPlayingState.ScreenHeight - 40 : ℤ) : R)⟩
      Velocity := { demoShip.Velocity with X := 0 } } ∧
    (demoPlayingState.NextWave clock0).1.Bullets =
      demoPlayingState.Bullets.filter (fun b => !b.IsPlayerBullet) ∧
    (demoPlayingState.NextWave clock0).1.Score = demoPlayingState.Score ∧
    (demoPlayingState.NextWave clock0).1.Lives = demoPlayingState.Lives ∧
    (demoPlayingState.NextWave clock0).1.HighScore = demoPlayingState.HighScore ∧
    (demoPlayingState.NextWave clock0).1.Mode = demoPlayingState.Mode ∧
    (demoPlayingState.NextWave clock0).1.Paused = demoPlayingState.Paused ∧
    (demoPlayingState.NextWave clock0).1.GameStarted = demoPlayingState.GameStarted ∧
    (demoPlayingState.NextWave clock0).1.GameEnded = demoPlayingState.GameEnded ∧
    (demoPlayingState.NextWave clock0).1.UFO = demoPlayingState.UFO ∧
    (demoPlayingState.NextWave clock0).1.Barriers = demoPlayingState.Barriers ∧
    (demoPlayingState.NextWave clock0).1.ScreenWidth = demoPlayingState.ScreenWidth ∧
    (demoPlayingState.NextWave clock0).1.ScreenHeight = demoPlayingState.ScreenHeight ∧
    (demoPlayingState.NextWave clock0).1.FixedDeltaTime = demoPlayingState.FixedDeltaTime :=
  c7_next_wave demoPlayingState clock0 demoShip rfl

/-- Evaluate one cons step of scanHit when the head is not a live hit. -/
theorem scanHit_cons_miss (bb : Bounds) (inv : Invader) (rest : List Invader)
    (hcond : (inv.Alive && bb.Intersects inv.Bounds) = false) :
    scanHit bb (inv :: rest) =
      match scanHit bb rest with
      | none => none
      | some (rest', pts) => some (inv :: rest', pts) := by
  cases ha : inv.Alive with
  | false => simp [scanHit, ha]
  | true =>
    have hx : bb.Intersects inv.Bounds = false := by
      cases hxx : bb.Intersects inv.Bounds
      · rfl
      · rw [ha, hxx] at hcond; cases hcond
    simp [scanHit, ha, hx]

/-- scanHit is exactly: find the first live intersecting invader, kill it in
place, report its points; leave everything else alone. -/
theorem scanHit_spec (bb : Bounds) : ∀ invs : List Invader,
    (specFirstHitIdx bb invs = none → scanHit bb invs = none) ∧
    (∀ j, specFirstHitIdx bb invs = some j →
      ∃ inv, invs.get? j = some inv ∧ (inv.Alive && bb.Intersects inv.Bounds) = true ∧
        scanHit bb invs = some (invs.set j { inv with Alive := false }, inv.Points) ∧
        ∀ k invk, k < j → invs.get? k = some invk →
          (invk.Alive && bb.Intersects invk.Bounds) = false) := by
  intro invs
  induction invs with
  | nil =>
    refine ⟨fun _ => rfl, fun j h => ?_⟩
    simp [specFirstHitIdx] at h
  | cons inv rest ih =>
    by_cases hcond : (inv.Alive && bb.Intersects inv.Bounds) = true
    · have hcc := hcond
      rw [Bool.and_eq_true] at hcc
      obtain ⟨ha, hx⟩ := hcc
      constructor
      · intro h
        simp [specFirstHitIdx, hcond] at h
      · intro j hj
        simp only [specFirstHitIdx, if_pos hcond] at hj
        injection hj with hj0
        subst hj0
        refine ⟨inv, rfl, hcond, ?_, fun k invk hk _ => absurd hk (Nat.not_lt_zero k)⟩
        simp [scanHit, ha, hx]
    · have hcond' : (inv.Alive && bb.Intersects inv.Bounds) = false := by
        simpa using hcond
      constructor
      · intro h
        simp only [specFirstHitIdx, if_neg hcond, Option.map_eq_none'] at h
        rw [scanHit_cons_miss bb inv rest hcond', ih.1 h]
      · intro j hj
        simp only [specFirstHitIdx, if_neg hcond, Option.map_eq_some'] at hj
        obtain ⟨m, hm, hjm⟩ := hj
        subst hjm
        obtain ⟨inv', hget, hc2, hscan, hfirst⟩ := ih.2 m hm
        refine ⟨inv', by simpa using hget, hc2, ?_, ?_⟩
        · rw [scanHit_cons_miss bb inv rest hcond', hscan]
          rfl
        · intro k invk hk hgetk
          cases k with
          | zero =>
            simp only [List.get?] at hgetk
            injection hgetk with hh
            subst hh
            exact hcond'
          | succ m2 =>
            exact hfirst m2 invk (Nat.lt_of_succ_lt_succ hk) (by simpa using hgetk)

/-- A successful scan kills exactly one live invader. -/
theorem scanHit_countP (bb : Bounds) : ∀ (invs invs' : List Invader) (pts : ℤ),
    scanHit bb invs = some (invs', pts) →
    invs.countP (fun i => i.Alive) = invs'.countP (fun i => i.Alive) + 1 := by
  intro invs
  induction invs with
  | nil => intro invs' pts h; cases h
  | cons inv rest ih =>
    intro invs' pts h
    by_cases hcond : (inv.Alive && bb.Intersects inv.Bounds) = true
    · have hcc := hcond
      rw [Bool.and_eq_true] at hcc
      obtain ⟨ha, hx⟩ := hcc
      simp only [scanHit, ha, hx, Bool.not_true, Bool.false_eq_true, if_false, if_pos] at h
      injection h with h1
      injection h1 with h1 h2
      subst h1
      simp [List.countP_cons, ha]
    · have hcond' : (inv.Alive && bb.Intersects inv.Bounds) = false := by simpa using hcond
      rw [scanHit_cons_miss bb inv rest hcond'] at h
      cases hs : scanHit bb rest with
      | none => rw [hs] at h; cases h
      | some r =>
        obtain ⟨rest', p⟩ := r
        rw [hs] at h
        injection h with h1
        injection h1 with h1 h2
        subst h1
        simp only [List.countP_cons]
        rw [ih rest' p hs]
        omega

/-- Across one whole collision pass, the number of live invaders drops by at
most the number of live player bullets. -/
theorem hpbcGo_live_bound : ∀ (bs : List Bullet) (invs : List Invader) (s h : ℤ),
    invs.countP (fun i => i.Alive) ≤
      (hpbcGo invs s h bs).2.1.countP (fun i => i.Alive) +
        bs.countP (fun bb => bb.Alive && bb.IsPlayerBullet) := by
  intro bs
  induction bs with
  | nil => intro invs s h; simp [hpbcGo]
  | cons b rest ih =>
    intro invs s h
    cases hA : b.Alive with
    | false =>
      have hguard : (!b.Alive || !b.IsPlayerBullet) = true := by simp [hA]
      simp only [hpbcGo, if_pos hguard, List.countP_cons, hA, Bool.false_and]
      simpa using ih invs s h
    | true =>
      cases hP : b.IsPlayerBullet with
      | false =>
        have hguard : (!b.Alive || !b.IsPlayerBullet) = true := by simp [hP]
        simp only [hpbcGo, if_pos hguard, List.countP_cons, hA, hP, Bool.and_false]
        simpa using ih invs s h
      | true =>
        cases hs : scanHit b.Bounds invs with
        | none =>
          have hle := ih invs s h
          simp only [hpbcGo, hA, hP, hs, List.countP_cons, Bool.not_true, Bool.or_self,
            Bool.false_eq_true, if_false, Bool.and_self, if_pos]
          omega
        | some r =>
          obtain ⟨invs', pts⟩ := r
          have hcount := scanHit_countP b.Bounds invs invs' pts hs
          have hrec := ih invs' (s + pts) (if s + pts > h then s + pts else h)
          simp only [hpbcGo, hA, hP, hs, List.countP_cons, Bool.not_true, Bool.or_self,
            Bool.false_eq_true, if_false, Bool.and_self, if_pos]
          omega

/-- C2: in a collision-resolution pass each live player bullet kills at most
one invader. The inner scan finds the first live invader (in list order)
whose bounds the bullet strictly intersects, kills exactly that one (the
list is otherwise untouched) and reports its point value; if no live invader
intersects, nothing changes. In the outer pass a live player bullet whose
scan hits dies, the score is increased by the victim's points (high score
following), and that bullet tests no further invaders; across the whole pass
the live-invader count drops by at most the number of live player bullets. -/
theorem c2_bullet_kills_at_most_one (st : GameState) (b : Bullet) (invs : List Invader)
    (hb : b.Alive = true) (hpb : b.IsPlayerBullet = true) :
    (specFirstHitIdx b.Bounds invs = none → scanHit b.Bounds invs = none) ∧
    (∀ j, specFirstHitIdx b.Bounds invs = some j →
      ∃ inv, invs.get? j = some inv ∧ (inv.Alive && b.Bounds.Intersects inv.Bounds) = true ∧
        scanHit b.Bounds invs = some (invs.set j { inv with Alive := false }, inv.Points) ∧
        ∀ k invk, k < j → invs.get? k = some invk →
          (invk.Alive && b.Bounds.Intersects invk.Bounds) = false) ∧
    (∀ (bs : List Bullet) (s h : ℤ) (invs' : List Invader) (pts : ℤ),
      scanHit b.Bounds invs = some (invs', pts) →
      hpbcGo invs s h (b :: bs) =
        ({ b with Alive := false } ::
            (hpbcGo invs' (s + pts) (if s + pts > h then s + pts else h) bs).1,
          (hpbcGo invs' (s + pts) (if s + pts > h then s + pts else h) bs).2)) ∧
    st.Invaders.countP (fun i => i.Alive) ≤
      st.handlePlayerBulletCollisions.Invaders.countP (fun i => i.Alive) +
        st.Bullets.countP (fun bb => bb.Alive && bb.IsPlayerBullet) := by
  refine ⟨(scanHit_spec b.Bounds invs).1, (scanHit_spec b.Bounds invs).2, ?_, ?_⟩
  · intro bs s h invs' pts hscan
    simp only [hpbcGo, hb, hpb, hscan, Bool.not_true, Bool.or_self, Bool.false_eq_true,
      if_false]
  · exact hpbcGo_live_bound st.Bullets st.Invaders st.Score st.HighScore

/-- Witness for C2 at a live player bullet over a one-invader list (the
bullet sits exactly on the invader, so the scan hits at index 0). -/
theorem c2_bullet_kills_at_most_one_witness :
    (specFirstHitIdx demoBullet.Bounds [liveInvader] = none →
      scanHit demoBullet.Bounds [liveInvader] = none) ∧
    (∀ j, specFirstHitIdx demoBullet.Bounds [liveInvader] = some j →
      ∃ inv, [liveInvader].get? j = some inv ∧
        (inv.Alive && demoBullet.Bounds.Intersects inv.Bounds) = true ∧
        scanHit demoBullet.Bounds [liveInvader] =
          some ([liveInvader].set j { inv with Alive := false }, inv.Points) ∧
        ∀ k invk, k < j → [liveInvader].get? k = some invk →
          (invk.Alive && demoBullet.Bounds.Intersects invk.Bounds) = false) ∧
    (∀ (bs : List Bullet) (s h : ℤ) (invs' : List Invader) (pts : ℤ),
      scanHit demoBullet.Bounds [liveInvader] = some (invs', pts) →
      hpbcGo [liveInvader] s h (demoBullet :: bs) =
        ({ demoBullet with Alive := false } ::
            (hpbcGo invs' (s + pts) (if s + pts > h then s + pts else h) bs).1,
          (hpbcGo invs' (s + pts) (if s + pts > h then s + pts else h) bs).2)) ∧
    demoState.Invaders.countP (fun i => i.Alive) ≤
      demoState.handlePlayerBulletCollisions.Invaders.countP (fun i => i.Alive) +
        demoState.Bullets.countP (fun bb => bb.Alive && bb.IsPlayerBullet) :=
  c2_bullet_kills_at_most_one demoState demoBullet [liveInvader] rfl rfl

/-- C9 (amended): initializeBarriers builds 4 barriers of 22 x 16 blocks;
within each barrier a block is solid exactly when it lies inside the 3-block
margin on every edge (columns 3..18, rows 3..12) and outside the tunnel
opening, which is 5 blocks wide and 3 tall (columns 9..13, rows 9..11) — not
the 6 x 4 gap the unamended claim states, see the counterexample. -/
theorem c9_barrier_layout (gs : GameState) :
    (gs.initializeBarriers).Barriers =
      (List.range (4 * 22)).map
        (fun gx => (List.range 16).map fun y => barrierBlockSolid (gx % 22) y) ∧
    ∀ x y : ℕ, barrierBlockSolid x y = true ↔
      (3 ≤ x ∧ x ≤ 18 ∧ 3 ≤ y ∧ y ≤ 12 ∧ ¬(9 ≤ x ∧ x ≤ 13 ∧ 9 ≤ y ∧ y ≤ 11)) := by
  refine ⟨rfl, ?_⟩
  intro x y
  simp only [barrierBlockSolid, Bool.and_eq_true, Bool.not_eq_true', Bool.or_eq_false_iff,
    decide_eq_false_iff_not, Bool.and_eq_false_iff, decide_eq_true_eq, Bool.not_eq_false']
  constructor
  · intro h
    omega
  · intro h
    omega

/-- Counterexample to C9 as stated: the tunnel opening inside the margins of
one barrier consists of exactly 15 blocks (5 wide by 3 tall), while a 6 x 4
gap would consist of 24; so the grid has no 6 x 4 centered gap. -/
theorem c9_counterexample :
    ((List.range 22).bind fun x =>
      (List.range 16).filter fun y =>
        decide (3 ≤ x) && decide (x ≤ 18) && decide (3 ≤ y) && decide (y ≤ 12) &&
          !barrierBlockSolid x y).length = 15 ∧ (15 : ℕ) ≠ 6 * 4 :=
  ⟨by decide, by decide⟩

/-- The guard of Invader.TryShoot reduces math.Mod over an integer-valued
float to zero: UnixNano()/1000 is Go integer division, and the float64 of an
int64 is always integer-valued, so its remainder mod 1 vanishes. -/
theorem mathMod_intCast_one (n : ℤ) : mathMod ((n : ℤ) : R) 1 = 0 := by
  by_cases h : (0 : R) ≤ ((n : ℤ) : R)
  · simp [mathMod, qtrunc, h, Int.floor_intCast]
  · simp [mathMod, qtrunc, h, Int.ceil_intCast]

/-- C8 (code behavior at the claim's inputs): a live invader whose CanShoot
flag is set fires on every tick in which ShootChance * dt is positive — with
probability 1, not shootChance * dt — because the pseudo-random guard
math.Mod(float64(UnixNano()/1000), 1.0) is always 0. -/
theorem c8_invader_always_fires (i : Invader) (dt : R) (c : Clock)
    (ha : i.Alive = true) (hc : i.CanShoot = true) (hpos : 0 < i.ShootChance * dt) :
    ((i.TryShoot dt c).1).isSome = true := by
  simp only [Invader.TryShoot, ha, hc, Bool.not_true, Bool.or_self, Bool.false_eq_true,
    if_false, Clock.now]
  rw [mathMod_intCast_one, if_pos hpos]
  rfl

/-- Witness for C8: the small invader from the grid fires with certainty at
the 1/20 s tick although the claim predicts probability 0.03 * 0.05. -/
theorem c8_invader_always_fires_witness :
    liveInvader.Alive = true ∧ liveInvader.CanShoot = true ∧
    0 < liveInvader.ShootChance * (1/20) ∧
    ((liveInvader.TryShoot (1/20) clock0).1).isSome = true :=
  have hpos : 0 < liveInvader.ShootChance * (1/20) := by
    rw [show liveInvader.ShootChance = 3/100 from rfl]
    norm_num
  ⟨rfl, rfl, hpos, c8_invader_always_fires liveInvader (1/20) clock0 rfl rfl hpos⟩

/-- C5 (code behavior at the claim's inputs): after a PlayerShip.Update in
which the horizontal clamp fired, the bounds are not derivable from the
position by the fixed offset — the clamp moves the position but leaves the
bounds at the pre-clamp values; and the analog-input path moves the player's
position without touching the bounds at all. -/
theorem c5_bounds_not_recomputed :
    ((clampShip.Update (1/20) 800 clock0).1.Position.X = 12 ∧
      (clampShip.Update (1/20) 800 clock0).1.Bounds.X = -7 ∧
      (clampShip.Update (1/20) 800 clock0).1.Bounds.X ≠
        (clampShip.Update (1/20) 800 clock0).1.Position.X -
          (clampShip.Update (1/20) 800 clock0).1.Bounds.Width / 2) ∧
    (((analogEngine.ProcessAnalogInput 1 false false false).state.Player.getD
        deadShip).Position.X = 659 ∧
      ((analogEngine.ProcessAnalogInput 1 false false false).state.Player.getD
        deadShip).Bounds.X = 388 ∧
      ((analogEngine.ProcessAnalogInput 1 false false false).state.Player.getD
        deadShip).Bounds.X ≠
        ((analogEngine.ProcessAnalogInput 1 false false false).state.Player.getD
          deadShip).Position.X -
        ((analogEngine.ProcessAnalogInput 1 false false false).state.Player.getD
          deadShip).Bounds.Width / 2) := by
  have h1 : (clampShip.Update (1/20) 800 clock0).1 =
      { clampShip with
          Position := ⟨12, 100⟩
          Bounds := ⟨-7, 92, 24, 16⟩
          AnimTimer := 1/20 } := by
    norm_num [clampShip, NewPlayerShip, PlayerShip.Update, Vector2.Add, Vector2.Scale,
      clock0, Clock.now]
  have h2 : (analogEngine.ProcessAnalogInput 1 false false false).state.Player =
      some { demoShip with Position := ⟨659, 560⟩ } := by
    norm_num [analogEngine, demoEngine, NewEngine, demoPlayingState, demoState,
      NewGameState, demoShip, NewPlayerShip, Engine.ProcessAnalogInput, clock0, Clock.now,
      InputState.default]
  constructor
  · rw [h1]
    refine ⟨rfl, rfl, ?_⟩
    rw [show ({ clampShip with
          Position := ⟨12, 100⟩
          Bounds := ⟨-7, 92, 24, 16⟩
          AnimTimer := 1/20 } : PlayerShip).Bounds.X = -7 from rfl,
      show ({ clampShip with
          Position := ⟨12, 100⟩
          Bounds := ⟨-7, 92, 24, 16⟩
          AnimTimer := 1/20 } : PlayerShip).Position.X = 12 from rfl,
      show ({ clampShip with
          Position := ⟨12, 100⟩
          Bounds := ⟨-7, 92, 24, 16⟩
          AnimTimer := 1/20 } : PlayerShip).Bounds.Width = 24 from rfl]
    norm_num
  · rw [h2]
    refine ⟨rfl, ?_, ?_⟩
    · rw [show (Option.getD (some { demoShip with Position := ⟨659, 560⟩ }) deadShip).Bounds.X =
          demoShip.Bounds.X from rfl, show demoShip.Bounds.X = 400 - 24/2 from rfl]
      norm_num
    · rw [show (Option.getD (some { demoShip with Position := ⟨659, 560⟩ }) deadShip).Bounds.X =
          demoShip.Bounds.X from rfl, show demoShip.Bounds.X = 400 - 24/2 from rfl,
        show (Option.getD (some { demoShip with Position := ⟨659, 560⟩ }) deadShip).Position.X =
          659 from rfl,
        show (Option.getD (some { demoShip with Position := ⟨659, 560⟩ }) deadShip).Bounds.Width =
          24 from rfl]
      norm_num

end Bobn
